import Mathlib

/-!
Verification of the CVGLPixelShader repository (Python) against its
natural-language specification.

The development shallowly embeds the host-side (CPU) logic of the two
modules that implement the shader engine:

- src/Unknown6656/CVGL/pixel_shader.py   (the package module), and
- src/Unknown6656/CVGLPixelShader.py     (the legacy single-file module),

together with src/Unknown6656/CVGL/shader_variable.py.

GPU-side behaviour (the GLSL execution itself) is not modelled; wherever a
claim depends on rendered pixels, rendering is an explicit opaque function
parameter.  All host-side data manipulation (string assembly of the
fragment shader, variable tables, numpy array validation and broadcasting,
the reference-counted GLFW window, heap allocation behaviour of apply) is
modelled executably, directly from the source.
-/

namespace CVGL

/-- Embeds enum ShaderVariableType of shader_variable.py (the nine
supported uniform types). -/
inductive ShaderVariableType where
  | BOOL
  | INT
  | INT_2
  | INT_3
  | INT_4
  | FLOAT
  | FLOAT_2
  | FLOAT_3
  | FLOAT_4
deriving DecidableEq, Repr

/-- Embeds ShaderVariableType.glsl_type of shader_variable.py. -/
def ShaderVariableType.glsl_type : ShaderVariableType → String
  | .BOOL => "bool"
  | .INT => "int"
  | .INT_2 => "ivec2"
  | .INT_3 => "ivec3"
  | .INT_4 => "ivec4"
  | .FLOAT => "float"
  | .FLOAT_2 => "vec2"
  | .FLOAT_3 => "vec3"
  | .FLOAT_4 => "vec4"

/-- The Python enum member name (ShaderVariableType.BOOL.name etc.), used
by the repr of ShaderVariable and by the f-string building each uniform
declaration line. -/
def ShaderVariableType.enumName : ShaderVariableType → String
  | .BOOL => "BOOL"
  | .INT => "INT"
  | .INT_2 => "INT_2"
  | .INT_3 => "INT_3"
  | .INT_4 => "INT_4"
  | .FLOAT => "FLOAT"
  | .FLOAT_2 => "FLOAT_2"
  | .FLOAT_3 => "FLOAT_3"
  | .FLOAT_4 => "FLOAT_4"

/-- Host-side scalar Python values that flow through the variable-binding
table: None, Python bool and int, Python float, and the numpy 32-bit
scalars produced by the coercions in set_variable.  Python floats and the
values wrapped by np.float32 are carried as exact rationals; the float32
rounding of the payload is abstracted away (no claim settled here depends
on the rounded numeric value, only on the structure and count of the
stored components). -/
inductive PyScalar where
  | none
  | bool (b : Bool)
  | int (n : Int)
  | float (q : ℚ)
  | i32 (n : Int)
  | f32 (q : ℚ)
deriving DecidableEq, Repr

/-- A host-side Python value: a scalar or a flat list of scalars.  Deeper
nesting of Python lists is outside the model; no claim settled below
involves a nested list. -/
inductive PyVal where
  | scalar (s : PyScalar)
  | list (xs : List PyScalar)
deriving DecidableEq, Repr

/-- Shorthand for the Python value None. -/
abbrev PyVal.vnone : PyVal := .scalar .none

/-- Shorthand for a Python int value. -/
abbrev PyVal.vint (n : Int) : PyVal := .scalar (.int n)

/-- Shorthand for a numpy int32 scalar value. -/
abbrev PyVal.vi32 (n : Int) : PyVal := .scalar (.i32 n)

/-- Shorthand for a numpy float32 scalar value. -/
abbrev PyVal.vf32 (q : ℚ) : PyVal := .scalar (.f32 q)

/-- Embeds dataclass ShaderVariable of shader_variable.py: name, type and
default value.  Dataclass equality compares all three fields, which the
derived DecidableEq mirrors.  (The legacy CVGLPixelShader.py dataclass has
no default_value field; its instances are modelled with default .none.) -/
structure ShaderVariable where
  name : String
  type : ShaderVariableType
  default_value : PyVal
deriving DecidableEq, Repr

/-- Truncation of a rational toward zero, the behaviour of the int(...)
cast applied by np.int32 to float input. -/
def ratTrunc (q : ℚ) : Int :=
  if 0 ≤ q then ⌊q⌋ else ⌈q⌉

/-- Wrap an unbounded integer to the signed 32-bit range, as np.int32
does. -/
def wrap32 (n : Int) : Int :=
  (n + 2 ^ 31) % 2 ^ 32 - 2 ^ 31

/-- Numeric content of a scalar Python value, used by the np.int32 /
np.float32 coercions.  Returns Option.none for None, whose conversion
raises in Python. -/
def PyScalar.asRat : PyScalar → Option ℚ
  | .bool b => some (if b then 1 else 0)
  | .int n => some (n : ℚ)
  | .i32 n => some (n : ℚ)
  | .float q => some q
  | .f32 q => some q
  | .none => Option.none

/-- Embeds np.int32 applied to one scalar: truncation toward zero and
32-bit wrap-around.  Option.none models a raised conversion error. -/
def npInt32Scalar (s : PyScalar) : Option PyScalar :=
  (s.asRat).map (fun q => .i32 (wrap32 (ratTrunc q)))

/-- Embeds np.float32 applied to one scalar (payload kept exact, see
PyScalar). -/
def npFloat32Scalar (s : PyScalar) : Option PyScalar :=
  (s.asRat).map .f32

/-- Elementwise conversion of a list of scalars, as performed by the list
comprehensions in set_variable; the whole conversion fails as soon as one
element fails. -/
def coerceList (f : PyScalar → Option PyScalar) : List PyScalar → Option (List PyScalar)
  | [] => some []
  | x :: xs =>
    match f x, coerceList f xs with
    | some y, some ys => some (y :: ys)
    | _, _ => Option.none

/-- Embeds np.int32(value) on a host value: scalars convert directly; a
list converts elementwise (numpy returns an int32 array). -/
def np_int32 : PyVal → Option PyVal
  | .scalar s => (npInt32Scalar s).map .scalar
  | .list xs => (coerceList npInt32Scalar xs).map .list

/-- Embeds np.float32(value) on a host value: scalars convert directly; a
list converts elementwise (numpy returns a float32 array). -/
def np_float32 : PyVal → Option PyVal
  | .scalar s => (npFloat32Scalar s).map .scalar
  | .list xs => (coerceList npFloat32Scalar xs).map .list

/-- String form of a scalar as produced by a Python f-string.  Only the
integer, bool and None cases are exercised by the claims settled below;
the decimal rendering of float payloads abstracts the exact repr of numpy
float scalars. -/
def PyScalar.pyStr : PyScalar → String
  | .none => "None"
  | .bool b => if b then "True" else "False"
  | .int n => toString n
  | .i32 n => toString n
  | .float q => toString q
  | .f32 q => toString q

/-- String form of a PyVal as produced by a Python f-string. -/
def PyVal.pyStr : PyVal → String
  | .scalar s => s.pyStr
  | .list xs => "[" ++ String.intercalate ", " (xs.map PyScalar.pyStr) ++ "]"

/-- Embeds ShaderVariable.__repr__ of shader_variable.py:
the type member name, a space, the variable name, and, when the default
value is not None, a " = value" suffix. -/
def ShaderVariable.pyRepr (v : ShaderVariable) : String :=
  v.type.enumName ++ " " ++ v.name ++
    (match v.default_value with
     | .scalar .none => ""
     | d => " = " ++ d.pyStr)

/-- Argument passed to get_variable / set_variable / the indexers: either a
Python string or a ShaderVariable instance (the two union members of the
annotated parameter type). -/
inductive VarArg where
  | str (s : String)
  | var (v : ShaderVariable)
deriving DecidableEq, Repr

/-- Python str(variable) applied to the argument: identity on strings, the
dataclass repr on ShaderVariable instances. -/
def VarArg.pyStrOf : VarArg → String
  | .str s => s
  | .var v => v.pyRepr

/-- The test key == variable performed inside the lookup loops: dataclass
equality when the argument is a ShaderVariable, False when it is a string
(dataclass __eq__ returns NotImplemented against a str and the comparison
falls back to False). -/
def dataclassEqB (key : ShaderVariable) : VarArg → Bool
  | .str _ => false
  | .var v => key = v

/-- The per-key match condition of the loops in get_variable and
set_variable: key == variable or key.name == str(variable). -/
def keyMatches (key : ShaderVariable) (arg : VarArg) : Bool :=
  dataclassEqB key arg || key.name = arg.pyStrOf

/-- The per-instance variable table self._variables: insertion-ordered
association list from declared ShaderVariable keys to current bound
values (a Python dict preserves insertion order). -/
abbrev VarTbl := List (ShaderVariable × PyVal)

/-- Errors raised by the host-side code.  The source raises plain
Exception everywhere; the constructors name the distinct raise sites /
messages (the taxonomy of spec section 7). -/
inductive PyError where
  | useAfterClose
  | unknownVariable
  | unsupportedType
  | typeError
  | emptyImage
  | invalidDimensionality
  | unsupportedChannelCount
  | classArgument
deriving DecidableEq, Repr

/-- Embeds PixelShader.get_variable: scan the table in order, return the
value of the first key for which key == variable or key.name ==
str(variable); raise the unknown-variable Exception when no key matches.
The method consults nothing but the table: it performs no lifecycle or
closed-state check. -/
def get_variable (tbl : VarTbl) (arg : VarArg) : Except PyError PyVal :=
  match tbl.find? (fun kv => keyMatches kv.1 arg) with
  | some kv => .ok kv.2
  | Option.none => .error .unknownVariable

/-- The coercion applied by set_variable once the matching key is found,
selected by the declared type of the key.  Scalar integer types apply
np.int32 to the whole value, integer vector types iterate the value and
apply np.int32 elementwise (iterating a non-list raises, modelled as
typeError), and the float cases mirror this with np.float32.  No branch
inspects the length of the value: the source performs no arity check. -/
def coerceForType (ty : ShaderVariableType) (value : PyVal) : Except PyError PyVal :=
  match ty with
  | .BOOL | .INT =>
    match np_int32 value with
    | some v => .ok v
    | Option.none => .error .typeError
  | .INT_2 | .INT_3 | .INT_4 =>
    match value with
    | .list xs =>
      match coerceList npInt32Scalar xs with
      | some ys => .ok (.list ys)
      | Option.none => .error .typeError
    | _ => .error .typeError
  | .FLOAT =>
    match np_float32 value with
    | some v => .ok v
    | Option.none => .error .typeError
  | .FLOAT_2 | .FLOAT_3 | .FLOAT_4 =>
    match value with
    | .list xs =>
      match coerceList npFloat32Scalar xs with
      | some ys => .ok (.list ys)
      | Option.none => .error .typeError
    | _ => .error .typeError

/-- Embeds PixelShader.set_variable: find the first matching key (same
match condition as get_variable), store the coerced value under it and
return; raise the unknown-variable Exception when no key matches.  Like
get_variable it performs no closed-state check, and it performs no arity
validation of vector values. -/
def set_variable (tbl : VarTbl) (arg : VarArg) (value : PyVal) :
    Except PyError VarTbl :=
  match tbl with
  | [] => .error .unknownVariable
  | kv :: rest =>
    if keyMatches kv.1 arg then
      (coerceForType kv.1.type value).map (fun v => (kv.1, v) :: rest)
    else
      (set_variable rest arg value).map (fun r => kv :: r)

/-- The GL upload entry points used by the uniform loop in
PixelShader.apply. -/
inductive GLUniformFunc where
  | u1i
  | u2i
  | u3i
  | u4i
  | u1f
  | u2f
  | u3f
  | u4f
deriving DecidableEq, Repr

/-- One recorded glUniform call: the resolved location, the entry point,
and the argument values passed after the location. -/
structure GLUploadCall where
  loc : Int
  func : GLUniformFunc
  args : List PyVal
deriving DecidableEq, Repr

/-- Python indexing value[i] as used by the vector upload branches.  The
source would raise on a non-list or a too-short list; those argument
extractions are not the subject of any claim, so out-of-range indexing is
given the junk result .none here. -/
def PyVal.item : PyVal → Nat → PyVal
  | .list xs, i => .scalar (xs.getD i .none)
  | _, _ => .vnone

/-- The first condition of the upload dispatch chain in PixelShader.apply
reads

  variable.type is ShaderVariableType.BOOL or type is ShaderVariableType.INT

where the bare name type denotes the Python builtin class type (nothing in
scope shadows it), and the builtin is never an enum member, so the second
disjunct is identically False.  This constant records that value of the
sub-expression, keeping the dead comparison visible in the embedding. -/
def builtinTypeIsEnumINT : Bool := false

/-- Embeds the per-variable dispatch of the uniform upload loop in
PixelShader.apply (the if / elif chain over the declared type).  The chain
has no final else: a variable whose type matches no branch produces no GL
call. -/
def dispatchUpload (loc : Int) (v : ShaderVariable) (value : PyVal) :
    Option GLUploadCall :=
  if v.type = .BOOL || builtinTypeIsEnumINT then
    some ⟨loc, .u1i, [value]⟩
  else if v.type = .INT_2 then
    some ⟨loc, .u2i, [value.item 0, value.item 1]⟩
  else if v.type = .INT_3 then
    some ⟨loc, .u3i, [value.item 0, value.item 1, value.item 2]⟩
  else if v.type = .INT_4 then
    some ⟨loc, .u4i, [value.item 0, value.item 1, value.item 2, value.item 3]⟩
  else if v.type = .FLOAT then
    some ⟨loc, .u1f, [value]⟩
  else if v.type = .FLOAT_2 then
    some ⟨loc, .u2f, [value.item 0, value.item 1]⟩
  else if v.type = .FLOAT_3 then
    some ⟨loc, .u3f, [value.item 0, value.item 1, value.item 2]⟩
  else if v.type = .FLOAT_4 then
    some ⟨loc, .u4f, [value.item 0, value.item 1, value.item 2, value.item 3]⟩
  else
    Option.none

/-- Embeds the whole uniform upload loop of PixelShader.apply: for each
declared variable, when its bound value is not None, resolve the GPU
location by name (locOf models glGetUniformLocation); when the location is
nonnegative run the dispatch chain, otherwise skip the variable silently
(the commented-out else branch in the source).  The loop only reads the
table. -/
def uniformUploads (tbl : VarTbl) (locOf : String → Int) : List GLUploadCall :=
  tbl.filterMap (fun kv =>
    if kv.2 = PyVal.vnone then Option.none
    else if 0 ≤ locOf kv.1.name then dispatchUpload (locOf kv.1.name) kv.1 kv.2
    else Option.none)

/-! ## The shared GLFW context (class-level state of PixelShader)

PixelShader keeps two class variables guarded by a class-level lock:
__instances (a Python int) and __window (the hidden GLFW window or None).
All lock acquisition is serialization only and is not modelled; the state
transitions below are exactly the mutations performed under the lock. -/

/-- The class-level shared state: the instance counter and the hidden
shared window (Some () when a window object exists, none when __window is
None).  Successful window creation is assumed (a platform failure would
surface as a fatal context error, outside every claim). -/
structure GlobalState where
  instances : Int
  window : Option Unit
deriving DecidableEq, Repr

/-- The state before any instance was constructed: counter 0, no
window. -/
def initState : GlobalState := ⟨0, Option.none⟩

/-- Embeds the context-management part of PixelShader.__init__:
set __instances to max(__instances + 1, 1); when the new count is at most
1 or __window is None, (re)create the hidden window. -/
def constructStep (g : GlobalState) : GlobalState :=
  let n := max (g.instances + 1) 1
  ⟨n, if n ≤ 1 ∨ g.window = Option.none then some () else g.window⟩

/-- Embeds the context-management part of PixelShader.close:
decrement __instances; when the count drops below 1, destroy the window
and set __window to None.  close records nothing on the instance itself:
no per-instance closed flag exists in the source. -/
def closeStep (g : GlobalState) : GlobalState :=
  let n := g.instances - 1
  ⟨n, if n < 1 then Option.none else g.window⟩

/-- A lifecycle event on the shared context: one constructor call or one
close call (on any instance). -/
inductive CtxOp where
  | construct
  | close
deriving DecidableEq, Repr

/-- Run a sequence of lifecycle events from a given state. -/
def runFrom (g : GlobalState) : List CtxOp → GlobalState
  | [] => g
  | .construct :: ops => runFrom (constructStep g) ops
  | .close :: ops => runFrom (closeStep g) ops

/-- Run a sequence of lifecycle events from the initial state. -/
def runOps (ops : List CtxOp) : GlobalState := runFrom initState ops

/-- Embeds the only lifecycle check in PixelShader.apply: the method
raises its use-after-close Exception iff the class-level counter
__instances is below 1.  It inspects no per-instance state. -/
def applyLifecycleGuard (g : GlobalState) : Except PyError Unit :=
  if g.instances < 1 then .error .useAfterClose else .ok ()

/-! ## The numpy image model and the validation pipeline of apply -/

/-- Element type tag of an ndarray: uint8 or anything else (the source
only ever tests dtype != np.uint8). -/
inductive Dtype where
  | uint8
  | other
deriving DecidableEq, Repr

/-- A numpy ndarray, modelled by its shape, dtype tag and row-major flat
element data.  Element values are integers; the exact value mapping of
astype for non-integral dtypes is irrelevant to every claim (only the
dtype tag and the element count are used). -/
structure NDArray where
  shape : List Nat
  dtype : Dtype
  data : List Int
deriving DecidableEq, Repr

/-- Embeds image.astype(np.uint8): same shape, uint8 dtype, elements
reduced mod 256 (the wrap-around of the C cast on integral input; claims
depend only on the resulting dtype tag). -/
def astypeU8 (a : NDArray) : NDArray :=
  ⟨a.shape, .uint8, a.data.map (fun v => v % 256)⟩

/-- Embeds np.repeat(image[:, :, None], 3, 2) for a 2-D array, and
equally np.repeat(image, 3, 2) for an (H, W, 1) array: the shape gains /
replaces the channel axis with 3 and every innermost element is tripled
in place (axis 2 is the innermost axis of the row-major layout). -/
def repeatChannel3 (a : NDArray) : NDArray :=
  ⟨a.shape.take 2 ++ [3], a.dtype, a.data.flatMap (fun v => List.replicate 3 v)⟩

/-- Embeds cv2.cvtColor(image, cv2.COLOR_BGR2RGB) (and its inverse, which
is the same permutation): reverse every 3-element channel group of the
row-major data.  Always allocates a fresh array in OpenCV. -/
def cvtColorSwapRB (a : NDArray) : NDArray :=
  ⟨a.shape, a.dtype, (a.data.toChunks 3).flatMap List.reverse⟩

/-- Embeds the input validation and channel broadcast at the top of
PixelShader.apply, in source order:

1. raise when class counter __instances < 1 (use-after-close guard);
2. len(image) == 0 raises the empty-image Exception; len() itself raises
   TypeError on a 0-dimensional array;
3. an array that is neither 2- nor 3-dimensional raises the
   dimensionality Exception;
4. otherwise, when dtype is not uint8, coerce with astype (note this step
   precedes the channel-count check in the source);
5. a 2-D array is broadcast to 3 channels, a 3-D array with one channel
   likewise, and a 3-D array with a channel count other than 1 or 3
   raises the channel-count Exception.

Returns the 3-channel uint8 array that the method goes on to feed to
cv2.cvtColor and the GPU. -/
def applyValidate (instances : Int) (img : NDArray) : Except PyError NDArray :=
  if instances < 1 then .error .useAfterClose
  else
    match img.shape with
    | [] => .error .typeError
    | d0 :: _ =>
      if d0 = 0 then .error .emptyImage
      else if ¬ (1 < img.shape.length ∧ img.shape.length < 4) then
        .error .invalidDimensionality
      else
        let img := if img.dtype ≠ .uint8 then astypeU8 img else img
        if img.shape.length = 2 then .ok (repeatChannel3 img)
        else if img.shape.getD 2 0 = 1 then .ok (repeatChannel3 img)
        else if img.shape.getD 2 0 ≠ 3 then .error .unsupportedChannelCount
        else .ok img

/-- The host-side remainder of PixelShader.apply after validation, with
the GPU draw abstracted as the function parameter render (the contents
glReadPixels deposits, as a function of the uploaded RGB image and of the
recorded uniform uploads): convert BGR to RGB, render, read back into a
fresh uint8 buffer of the same shape, convert back to BGR. -/
def applyResult (render : List GLUploadCall → NDArray → List Int)
    (locOf : String → Int) (tbl : VarTbl) (instances : Int) (img : NDArray) :
    Except PyError NDArray :=
  (applyValidate instances img).map (fun pre =>
    let rgb := cvtColorSwapRB pre
    let rendered : NDArray := ⟨rgb.shape, .uint8, render (uniformUploads tbl locOf) rgb⟩
    cvtColorSwapRB rendered)

/-- Whether an Except computation succeeded. -/
def exceptOk {ε α : Type} : Except ε α → Bool
  | .ok _ => true
  | .error _ => false

/-! ## Heap model of apply (claim C9)

The frame effects of PixelShader.apply on host memory are modelled with an
explicit heap of numpy arrays.  Each array lives at a numeric id;
np.ndarray.astype, np.repeat, cv2.cvtColor and np.empty allocate fresh
arrays (their documented behaviour on the paths apply takes: astype is
only called when the dtype differs, so it always copies), and
gl.glReadPixels performs the single in-place write, into the freshly
allocated output buffer. -/

/-- A heap of numpy arrays: association list from id to array plus the
next fresh id. -/
structure Heap where
  mem : List (Nat × NDArray)
  next : Nat
deriving DecidableEq, Repr

/-- Read the array stored at an id. -/
def Heap.lookup (h : Heap) (i : Nat) : Option NDArray :=
  (h.mem.find? (fun p => p.1 = i)).map (fun p => p.2)

/-- Allocate a fresh array, returning its id and the grown heap. -/
def Heap.alloc (h : Heap) (a : NDArray) : Nat × Heap :=
  (h.next, ⟨(h.next, a) :: h.mem, h.next + 1⟩)

/-- Overwrite the array stored at an id in place (glReadPixels). -/
def Heap.write (h : Heap) (i : Nat) (a : NDArray) : Heap :=
  ⟨h.mem.map (fun p => if p.1 = i then (i, a) else p), h.next⟩

/-- The draw-and-readback tail of apply at heap level, entered once
validation and broadcasting succeeded: cv2.cvtColor allocates the RGB
conversion of the 3-channel image, np.empty allocates the output buffer
(its uninitialised contents modelled as zeros), glReadPixels writes the
rendered pixels into that buffer - the only heap write apply performs -
and the final cv2.cvtColor allocates the returned BGR array.  The
variable table is only read (by the uniform upload loop) and is returned
unchanged. -/
def applyHeapDraw (render : List GLUploadCall → NDArray → List Int)
    (img : NDArray) (hp : Heap) (tbl : VarTbl) (locOf : String → Int) :
    Except PyError (Nat × Heap × VarTbl) :=
  let rgb := cvtColorSwapRB img
  let al1 := hp.alloc rgb
  let al2 := al1.2.alloc ⟨rgb.shape, .uint8, List.replicate rgb.data.length 0⟩
  let rendered : NDArray := ⟨rgb.shape, .uint8, render (uniformUploads tbl locOf) rgb⟩
  let hpW := al2.2.write al2.1 rendered
  let al3 := hpW.alloc (cvtColorSwapRB rendered)
  .ok (al3.1, al3.2, tbl)

/-- Heap-level embedding of PixelShader.apply: look up the caller's input
array, run the validation chain of applyValidate, allocate the astype
copy when the dtype differs, allocate the np.repeat broadcast on the 2-D
and single-channel paths, and finish with applyHeapDraw.  The input array
is never written. -/
def applyHeap (render : List GLUploadCall → NDArray → List Int)
    (instances : Int) (hp : Heap) (tbl : VarTbl) (locOf : String → Int)
    (inputId : Nat) : Except PyError (Nat × Heap × VarTbl) :=
  match hp.lookup inputId with
  | Option.none => .error .typeError
  | some a =>
    if instances < 1 then .error .useAfterClose
    else
      match a.shape with
      | [] => .error .typeError
      | d0 :: _ =>
        if d0 = 0 then .error .emptyImage
        else if ¬ (1 < a.shape.length ∧ a.shape.length < 4) then
          .error .invalidDimensionality
        else
          let a1 := if a.dtype ≠ .uint8 then astypeU8 a else a
          let hp1 := if a.dtype ≠ .uint8 then (hp.alloc (astypeU8 a)).2 else hp
          if a1.shape.length = 2 ∨ a1.shape.getD 2 0 = 1 then
            applyHeapDraw render (repeatChannel3 a1)
              (hp1.alloc (repeatChannel3 a1)).2 tbl locOf
          else if a1.shape.getD 2 0 ≠ 3 then .error .unsupportedChannelCount
          else applyHeapDraw render a1 hp1 tbl locOf

/-! ## apply_shader (claim C10) -/

/-- The first argument of the module-level function apply_shader: the
PixelShader class object itself, or an already-constructed instance
(carrying its variable table).  Passing any other type object would
construct a fresh instance; no claim concerns that branch and it is not
modelled. -/
inductive ShaderArg where
  | classObject
  | inst (tbl : VarTbl)

/-- The kwargs loop of apply_shader: each keyword argument is stored with
the item-assignment operator, which is set_variable; the first failure
propagates. -/
def setKwargs (tbl : VarTbl) : List (String × PyVal) → Except PyError VarTbl
  | [] => .ok tbl
  | (k, v) :: rest =>
    match set_variable tbl (.str k) v with
    | .ok t2 => setKwargs t2 rest
    | .error e => .error e

/-- Embeds apply_shader of pixel_shader.py: the PixelShader class object
itself is rejected with an Exception; for an instance, every keyword
argument is bound via set_variable, the shader is applied to the image,
and the instance is closed unconditionally before the result is
returned. -/
def apply_shader (render : List GLUploadCall → NDArray → List Int)
    (locOf : String → Int) (arg : ShaderArg) (g : GlobalState) (img : NDArray)
    (kwargs : List (String × PyVal)) :
    Except PyError (NDArray × GlobalState × VarTbl) :=
  match arg with
  | .classObject => .error .classArgument
  | .inst tbl =>
    match setKwargs tbl kwargs with
    | .error e => .error e
    | .ok tbl2 =>
      match applyResult render locOf tbl2 g.instances img with
      | .error e => .error e
      | .ok out => .ok (out, closeStep g, tbl2)

/-! ## Fragment shader assembly (claim C1)

Both modules assemble the fragment shader source by calling
str.replace three times on a fixed template: first the code marker is
replaced by the caller body, then the functions marker by the helper
functions, then the uniforms marker by the generated uniform declaration
block.  Strings are modelled as lists of characters; replaceAll mirrors
the semantics of Python str.replace (scan left to right, splice the
replacement at each occurrence and resume after it, never rescanning
replaced text). -/

/-- Fuel-driven scanner implementing Python str.replace(pat, rep) on
character lists: scan left to right; at each position where pat is a
prefix, emit rep and continue after the matched occurrence; replaced text
is not rescanned.  Each step consumes at least one character, so any fuel
of at least the length of the string yields the replace semantics (the
fuel exists only to make the recursion structural). -/
def replaceAllGo (pat rep : List Char) : Nat → List Char → List Char
  | 0, s => s
  | fuel + 1, s =>
    match s with
    | [] => []
    | a :: as =>
      if pat ≠ [] ∧ pat.isPrefixOf (a :: as) then
        rep ++ replaceAllGo pat rep fuel ((a :: as).drop pat.length)
      else
        a :: replaceAllGo pat rep fuel as

/-- Python str.replace(pat, rep) on character lists. -/
def replaceAll (s pat rep : List Char) : List Char :=
  replaceAllGo pat rep s.length s

/-- Whether pat occurs (as a contiguous substring) anywhere in s. -/
def hasMatch (s pat : List Char) : Bool :=
  pat.isPrefixOf s ||
    match s with
    | [] => false
    | _ :: cs => hasMatch cs pat

/-- Python str.splitlines restricted to newline separators (the only line
boundary occurring in GLSL source): each newline terminates a line, a
final fragment without trailing newline is its own line, and the empty
string has no lines. -/
def pySplitlines (s : List Char) : List (List Char) :=
  if s = [] then []
  else
    match h : s.dropWhile (fun c => c ≠ '\n') with
    | [] => [s.takeWhile (fun c => c ≠ '\n')]
    | _ :: rs => s.takeWhile (fun c => c ≠ '\n') :: pySplitlines rs
termination_by s.length
decreasing_by
  have h1 : (s.dropWhile (fun c => c ≠ '\n')).length ≤ s.length :=
    (List.dropWhile_sublist _).length_le
  rw [h] at h1
  simp only [List.length_cons] at h1
  omega

/-- Python newline.join on character-list lines. -/
def joinNl : List (List Char) → List Char
  | [] => []
  | [x] => x
  | x :: y :: xs => x ++ '\n' :: joinNl (y :: xs)

/-- ENABLE_GLSL_LINE_NUMBER_CORRECTION of pixel_shader.py (module-level
constant, True). -/
def ENABLE_GLSL_LINE_NUMBER_CORRECTION : Bool := true

/-- One tagged line of the line-number correction: the directive with the
0-based original line index, a newline, then the original line. -/
def lineTagLine (i : Nat) (x : List Char) : List Char :=
  "#line ".data ++ Nat.toDigits 10 i ++ '\n' :: x

/-- The line-number correction applied to the caller body by
pixel_shader.py before splicing (join of the tagged enumerated lines). -/
def lineTag (code : List Char) : List Char :=
  joinNl ((pySplitlines code).enum.map (fun p => lineTagLine p.1 p.2))

/-- One generated uniform declaration line, from the f-string in both
constructors: the declaration of variable x at index i is placed at
binding slot i + 3, with its GLSL type, a comment carrying the enum tag,
and the variable name. -/
def uniformLine (i : Nat) (v : ShaderVariable) : List Char :=
  "layout (location = ".data ++ Nat.toDigits 10 (i + 3)
    ++ ") uniform ".data ++ (v.type.glsl_type).data
    ++ " /* ShaderVariableType.".data ++ (v.type.enumName).data
    ++ " */ ".data ++ v.name.data ++ [';']

/-- The enumerated list of generated uniform declaration lines. -/
def uniformLines (vars : List ShaderVariable) : List (List Char) :=
  vars.enum.map (fun p => uniformLine p.1 p.2)

/-- The uniform declaration block: newline-join of the generated lines. -/
def uniformBlock (vars : List ShaderVariable) : List Char :=
  joinNl (uniformLines vars)

/-- The substitution marker for the caller body. -/
def markCODE : List Char := "%__CODE__%".data

/-- The substitution marker for the uniform declaration block. -/
def markUNIFORMS : List Char := "%__UNIFORMS__%".data

/-- The substitution marker for the helper functions. -/
def markFUNCTIONS : List Char := "%__FUNCTIONS__%".data

/-- The template text before the uniforms marker: preamble, the out_color
output at location 0, and the width and height uniforms at locations 1
and 2. -/
def fragT1 : String :=
  "\n    #version 450\n\n    in vec2 coords;\n    layout (location = 0) out vec4 out_color;\n\n    layout (location = 1) uniform int width;\n    layout (location = 2) uniform int height;\n    "

/-- The template text between the uniforms marker and the functions
marker: the image sampler at binding 0 and the built-in helper
functions. -/
def fragT2 : String :=
  "\n    layout (binding = 0) uniform sampler2D image;\n\n    const float TAU = 6.28318530718;\n\n    vec4 blur(const vec2 coords, const float r, const float q)\n    \x7b\n        float i_qual = 1.0 / q;\n        vec4 color = texture2D(image, coords);\n\n        for (float phi = 0.0; phi < TAU; phi += TAU * i_qual * i_qual)\n            for (float i = i_qual; i <= 1.0; i += i_qual)\n                color += texture2D(image, coords + vec2(cos(phi) / width, sin(phi) / height) * r * i);\n\n        return color * i_qual * i_qual * i_qual;\n    \x7d\n\n    vec3 rgb2hsv(const vec3 c)\n    \x7b\n        const vec4 K = vec4(0.0, -1.0 / 3.0, 2.0 / 3.0, -1.0);\n        const vec4 p = mix(vec4(c.bg, K.wz), vec4(c.gb, K.xy), step(c.b, c.g));\n        const vec4 q = mix(vec4(p.xyw, c.r), vec4(c.r, p.yzx), step(p.x, c.r));\n        const float d = q.x - min(q.w, q.y);\n        const float e = 1.0e-10;\n\n        return vec3(abs(q.z + (q.w - q.y) / (6.0 * d + e)), d / (q.x + e), q.x);\n    \x7d\n\n    vec3 hsv2rgb(const vec3 c)\n    \x7b\n        const vec4 K = vec4(1.0, 2.0 / 3.0, 1.0 / 3.0, 3.0);\n        const vec3 p = abs(fract(c.xxx + K.xyz) * 6.0 - K.www);\n\n        return c.z * mix(K.xxx, clamp(p - K.xxx, 0.0, 1.0), c.y);\n    \x7d\n\n    float ciegray(const vec3 c)\n    \x7b\n        return dot(c, vec3(0.299, 0.587, 0.114));\n    \x7d\n\n    "

/-- The template text between the functions marker and the code marker:
the opening of main and the default color assignment that seeds out_color
with the sampled input. -/
def fragT3 : String :=
  "\n    void main() \x7b\n        out_color = texture(image, coords);\n\n        "

/-- The template text after the code marker: the unconditional final
clamp of out_color and the closing brace of main. -/
def fragT4 : String :=
  "\n\n        out_color = clamp(out_color, 0, 1);\n    \x7d\n    "

/-- The value of PixelShader.__FRAGMENT_SHADER in pixel_shader.py.  The
Python source spells it as one f-string; its value is exactly the literal
text pieces fragT1 to fragT4 with the three markers interpolated between
them in this order (uniforms, functions, code), which the concatenation
below reproduces verbatim. -/
def fragmentShaderTemplate : String :=
  fragT1 ++ "%__UNIFORMS__%" ++ fragT2 ++ "%__FUNCTIONS__%" ++ fragT3
    ++ "%__CODE__%" ++ fragT4

/-- The legacy template text before the uniforms marker. -/
def legT1 : String :=
  "\n#version 450\n\nin vec2 coords;\nlayout (location = 0) out vec4 out_color;\n\nlayout (location = 1) uniform int width;\nlayout (location = 2) uniform int height;\n"

/-- The legacy template text between the uniforms and functions
markers. -/
def legT2 : String :=
  "\nlayout (binding = 0) uniform sampler2D image;\n\n"

/-- The legacy template text between the functions and code markers. -/
def legT3 : String :=
  "\nvoid main() \x7b\n    vec2 scales = vec2(width, height) * 0.2;\n    out_color = texture(image, coords);\n\n    "

/-- The legacy template text after the code marker: only the closing
brace of main; no clamp. -/
def legT4 : String :=
  "\n\x7d\n"

/-- The value of _FRAGMENT_SHADER in the legacy module
CVGLPixelShader.py, again assembled verbatim from the literal text
pieces of its f-string with the markers interpolated in the same order.
Its main ends directly after the caller body: this template contains no
clamp. -/
def legacyFragmentShaderTemplate : String :=
  legT1 ++ "%__UNIFORMS__%" ++ legT2 ++ "%__FUNCTIONS__%" ++ legT3
    ++ "%__CODE__%" ++ legT4

/-- Embeds the fragment shader assembly of PixelShader.__init__ in
pixel_shader.py: the caller body is first rewritten by the line-number
correction (the module constant is True), then the template undergoes the
three replace calls in source order: code, then functions, then
uniforms. -/
def assembleFragment (shader_code additional_functions : List Char)
    (vars : List ShaderVariable) : List Char :=
  let code :=
    if ENABLE_GLSL_LINE_NUMBER_CORRECTION then lineTag shader_code else shader_code
  replaceAll
    (replaceAll (replaceAll fragmentShaderTemplate.data markCODE code)
      markFUNCTIONS additional_functions)
    markUNIFORMS (uniformBlock vars)

/-- Embeds the fragment shader assembly of PixelShader.__init__ in the
legacy module CVGLPixelShader.py: same three replace calls, no
line-number correction. -/
def assembleLegacyFragment (shader_code additional_functions : List Char)
    (vars : List ShaderVariable) : List Char :=
  replaceAll
    (replaceAll (replaceAll legacyFragmentShaderTemplate.data markCODE shader_code)
      markFUNCTIONS additional_functions)
    markUNIFORMS (uniformBlock vars)

/-! ## Helper lemmas -/

/-- Decidable equality on Except results, used to evaluate the concrete
scenarios below. -/
instance {ε α : Type} [DecidableEq ε] [DecidableEq α] : DecidableEq (Except ε α) :=
  fun a b =>
    match a, b with
    | .ok x, .ok y =>
      if h : x = y then .isTrue (by rw [h])
      else .isFalse (by intro hc; cases hc; exact h rfl)
    | .error x, .error y =>
      if h : x = y then .isTrue (by rw [h])
      else .isFalse (by intro hc; cases hc; exact h rfl)
    | .ok _, .error _ => .isFalse (by intro hc; cases hc)
    | .error _, .ok _ => .isFalse (by intro hc; cases hc)

/-- Except.map on a success. -/
theorem excMap_ok {ε α β : Type} (f : α → β) (a : α) :
    (Except.ok a : Except ε α).map f = .ok (f a) := rfl

/-- Except.map on an error. -/
theorem excMap_error {ε α β : Type} (f : α → β) (e : ε) :
    (Except.error e : Except ε α).map f = .error e := rfl

/-- A constructor call always leaves a window in place: either the branch
creates one, or the counter was above 1 and a window (the only non-None
Option Unit value) already existed. -/
theorem constructStep_window (g : GlobalState) : (constructStep g).window = some () := by
  unfold constructStep
  dsimp only
  split
  · rfl
  · rename_i h
    push_neg at h
    rcases hw : g.window with _ | u
    · exact absurd hw h.2
    · cases u
      rfl

/-- On a state with a nonnegative counter, the constructor increments the
counter and installs a window. -/
theorem constructStep_eq (g : GlobalState) (hg : 0 ≤ g.instances) :
    constructStep g = ⟨g.instances + 1, some ()⟩ := by
  have hw := constructStep_window g
  have hi : (constructStep g).instances = max (g.instances + 1) 1 := rfl
  have hmax : max (g.instances + 1) 1 = g.instances + 1 := by omega
  cases hcs : constructStep g with
  | mk i w =>
    rw [hcs] at hw hi
    dsimp only at hw hi
    rw [hw, hi, hmax]

/-- While at least two instances are alive, close only decrements the
counter. -/
theorem closeStep_eq_alive (g : GlobalState) (hg : 2 ≤ g.instances) :
    closeStep g = ⟨g.instances - 1, g.window⟩ := by
  unfold closeStep
  dsimp only
  split
  · omega
  · rfl

/-- Running a concatenation of event lists runs them in sequence. -/
theorem runFrom_append (xs ys : List CtxOp) (g : GlobalState) :
    runFrom g (xs ++ ys) = runFrom (runFrom g xs) ys := by
  induction xs generalizing g with
  | nil => rfl
  | cons op ops ih => cases op <;> simp [runFrom, ih]

/-- The context invariant of spec section 3 is preserved by every event
sequence: a window exists iff the counter is at least 1. -/
theorem ctxInv_runFrom (ops : List CtxOp) (g : GlobalState)
    (h : g.window.isSome ↔ 1 ≤ g.instances) :
    (runFrom g ops).window.isSome ↔ 1 ≤ (runFrom g ops).instances := by
  induction ops generalizing g with
  | nil => simpa [runFrom] using h
  | cons op ops ih =>
    cases op with
    | construct =>
      refine ih _ ?_
      rw [constructStep_window]
      have hi : (constructStep g).instances = max (g.instances + 1) 1 := rfl
      rw [hi]
      simp only [Option.isSome_some, true_iff]
      omega
    | close =>
      refine ih _ ?_
      by_cases hc : g.instances - 1 < 1
      · have hstep : closeStep g = ⟨g.instances - 1, Option.none⟩ := by
          unfold closeStep
          dsimp only
          rw [if_pos hc]
        rw [hstep]
        show (Option.none : Option Unit).isSome ↔ 1 ≤ g.instances - 1
        simp only [Option.isSome_none, Bool.false_eq_true, false_iff]
        omega
      · have hstep : closeStep g = ⟨g.instances - 1, g.window⟩ := by
          unfold closeStep
          dsimp only
          rw [if_neg hc]
        rw [hstep]
        show g.window.isSome ↔ 1 ≤ g.instances - 1
        have h2 : 1 ≤ g.instances := by omega
        simp only [h.mpr h2, true_iff]
        omega

/-- Running n + 1 constructor calls from a nonnegative state adds n + 1 to
the counter and leaves a window in place. -/
theorem runFrom_constructs (n : ℕ) (g : GlobalState) (hg : 0 ≤ g.instances) :
    runFrom g (List.replicate (n + 1) .construct)
      = ⟨g.instances + (n + 1 : ℕ), some ()⟩ := by
  induction n generalizing g with
  | zero =>
    have h1 : runFrom g (List.replicate 1 CtxOp.construct) = constructStep g := rfl
    rw [h1, constructStep_eq g hg]
    simp only [GlobalState.mk.injEq, and_true]
    omega
  | succ n ih =>
    have h1 : runFrom g (List.replicate (n + 1 + 1) CtxOp.construct)
        = runFrom (constructStep g) (List.replicate (n + 1) CtxOp.construct) := rfl
    rw [h1, constructStep_eq g hg,
      ih ⟨g.instances + 1, some ()⟩ (by dsimp only; omega)]
    simp only [GlobalState.mk.injEq, and_true]
    omega

/-- Running n close calls while more than n instances are alive just
subtracts n from the counter; the window survives. -/
theorem runFrom_closes (n : ℕ) (g : GlobalState) (hn : (n : ℤ) < g.instances)
    (hw : g.window = some ()) :
    runFrom g (List.replicate n .close) = ⟨g.instances - (n : ℕ), some ()⟩ := by
  induction n generalizing g with
  | zero =>
    cases g
    simp_all [runFrom]
  | succ n ih =>
    have h1 : runFrom g (List.replicate (n + 1) CtxOp.close)
        = runFrom (closeStep g) (List.replicate n CtxOp.close) := rfl
    rw [h1, closeStep_eq_alive g (by omega), hw,
      ih ⟨g.instances - 1, some ()⟩ (by dsimp only; omega) rfl]
    simp only [GlobalState.mk.injEq, and_true]
    omega

/-- Option.map preserves ok-ness of Except values transported through
Except.map; spelled out for the error cases used below. -/
theorem coerceForType_error_eq (ty : ShaderVariableType) (value : PyVal) (e : PyError)
    (h : coerceForType ty value = .error e) : e = .typeError := by
  unfold coerceForType at h
  cases ty <;> simp only at h <;>
    (try split at h) <;> (try split at h) <;> simp_all

/-- set_variable can only fail with the unknown-variable error or a value
conversion TypeError; in particular it never raises the use-after-close
error. -/
theorem set_variable_not_useAfterClose (tbl : VarTbl) (arg : VarArg) (value : PyVal) :
    set_variable tbl arg value ≠ .error .useAfterClose := by
  induction tbl with
  | nil => simp [set_variable]
  | cons kv rest ih =>
    simp only [set_variable]
    split
    · cases h : coerceForType kv.1.type value with
      | ok v => rw [excMap_ok]; simp
      | error e =>
        have he := coerceForType_error_eq _ _ _ h
        subst he
        rw [excMap_error]
        simp
    · cases h : set_variable rest arg value with
      | ok r => rw [excMap_ok]; simp
      | error e =>
        rw [excMap_error]
        intro hc
        injection hc with he
        subst he
        exact ih h

/-- Elementwise conversion success determines the converted list, whose
length always equals the input length. -/
theorem coerceList_length (f : PyScalar → Option PyScalar) (xs ys : List PyScalar)
    (h : coerceList f xs = some ys) : ys.length = xs.length := by
  induction xs generalizing ys with
  | nil =>
    simp only [coerceList, Option.some.injEq] at h
    subst h
    rfl
  | cons x xs ih =>
    simp only [coerceList] at h
    cases hx : f x with
    | none => rw [hx] at h; simp at h
    | some y =>
      rw [hx] at h
      cases hxs : coerceList f xs with
      | none => rw [hxs] at h; simp at h
      | some zs =>
        rw [hxs] at h
        simp only [Option.some.injEq] at h
        subst h
        simp [ih zs hxs]

/-! ## Claim C5 -/

/-- C5: the shared GPU context obeys reference counting.  After any
sequence of constructor and close events, a window exists iff the
instance counter is at least 1; constructing N instances (N at least 1)
and closing N - 1 of them leaves the shared context alive with counter 1,
closing the last one destroys it (counter 0, window None), and a
subsequent construction recreates it. -/
theorem c5_context_refcounting (ops : List CtxOp) (N : ℕ) (hN : 1 ≤ N) :
    ((runOps ops).window.isSome ↔ 1 ≤ (runOps ops).instances)
    ∧ runOps (List.replicate N .construct ++ List.replicate (N - 1) .close)
        = ⟨1, some ()⟩
    ∧ runOps (List.replicate N .construct ++ List.replicate (N - 1) .close
        ++ [.close]) = ⟨0, Option.none⟩
    ∧ runOps (List.replicate N .construct ++ List.replicate (N - 1) .close
        ++ [.close, .construct]) = ⟨1, some ()⟩ := by
  have hconstr : runFrom initState (List.replicate N CtxOp.construct)
      = ⟨(N : ℤ), some ()⟩ := by
    obtain ⟨m, rfl⟩ : ∃ m, N = m + 1 := ⟨N - 1, by omega⟩
    rw [runFrom_constructs m initState (by norm_num [initState])]
    simp [initState]
  have halive : runOps (List.replicate N CtxOp.construct
      ++ List.replicate (N - 1) CtxOp.close) = ⟨1, some ()⟩ := by
    unfold runOps
    rw [runFrom_append, hconstr,
      runFrom_closes (N - 1) ⟨(N : ℤ), some ()⟩ (by push_cast; omega) rfl]
    simp only [GlobalState.mk.injEq, and_true]
    push_cast [Nat.cast_sub hN]
    ring
  have hdead : runOps (List.replicate N CtxOp.construct
      ++ List.replicate (N - 1) CtxOp.close ++ [CtxOp.close])
        = ⟨0, Option.none⟩ := by
    unfold runOps
    rw [runFrom_append]
    have : runFrom initState (List.replicate N CtxOp.construct
        ++ List.replicate (N - 1) CtxOp.close) = ⟨1, some ()⟩ := halive
    rw [this]
    decide
  refine ⟨ctxInv_runFrom ops initState (by simp [initState]), halive, hdead, ?_⟩
  unfold runOps
  have hsplit : List.replicate N CtxOp.construct ++ List.replicate (N - 1) CtxOp.close
      ++ [CtxOp.close, CtxOp.construct]
      = (List.replicate N CtxOp.construct ++ List.replicate (N - 1) CtxOp.close
        ++ [CtxOp.close]) ++ [CtxOp.construct] := by
    simp
  rw [hsplit, runFrom_append]
  have : runFrom initState (List.replicate N CtxOp.construct
      ++ List.replicate (N - 1) CtxOp.close ++ [CtxOp.close]) = ⟨0, Option.none⟩ := hdead
  rw [this]
  decide

/-- Witness for C5 at N = 2 and the empty event sequence. -/
theorem c5_context_refcounting_witness :
    ((runOps []).window.isSome ↔ 1 ≤ (runOps []).instances)
    ∧ runOps (List.replicate 2 .construct ++ List.replicate (2 - 1) .close)
        = ⟨1, some ()⟩
    ∧ runOps (List.replicate 2 .construct ++ List.replicate (2 - 1) .close
        ++ [.close]) = ⟨0, Option.none⟩
    ∧ runOps (List.replicate 2 .construct ++ List.replicate (2 - 1) .close
        ++ [.close, .construct]) = ⟨1, some ()⟩ :=
  c5_context_refcounting [] 2 (by norm_num)

/-! ## Claim C4 -/

/-- C4 counterexample: close() records nothing on the instance.  With two
instances constructed and one closed, the lifecycle guard of apply still
passes (the class counter is 1), so apply on the closed instance does not
raise the use-after-close error; and even with every instance closed,
get_variable and set_variable succeed outright, because neither method
performs any lifecycle check. -/
theorem c4_counterexample :
    applyLifecycleGuard (closeStep (constructStep (constructStep initState)))
        = .ok ()
    ∧ (closeStep (constructStep initState)).instances = 0
    ∧ get_variable [(⟨"x", .INT, .vint 5⟩, .vint 5)] (.str "x") = .ok (.vint 5)
    ∧ set_variable [(⟨"x", .INT, .vint 5⟩, .vint 5)] (.str "x") (.vint 7)
        = .ok [(⟨"x", .INT, .vint 5⟩, .vi32 7)] := by
  refine ⟨by decide, by decide, by decide, ?_⟩
  decide

/-- C4 (amended): the use-after-close error exists only in apply, and its
guard consults the class-wide instance counter alone: apply raises it iff
the counter is below 1, regardless of which instance is called;
get_variable and set_variable perform no lifecycle check at all and can
never produce that error. -/
theorem c4_lifecycle_guard :
    (∀ g : GlobalState,
      applyLifecycleGuard g = .error .useAfterClose ↔ g.instances < 1)
    ∧ (∀ (tbl : VarTbl) (arg : VarArg),
        get_variable tbl arg ≠ .error .useAfterClose)
    ∧ (∀ (tbl : VarTbl) (arg : VarArg) (value : PyVal),
        set_variable tbl arg value ≠ .error .useAfterClose) := by
  refine ⟨?_, ?_, fun tbl arg value => set_variable_not_useAfterClose tbl arg value⟩
  · intro g
    unfold applyLifecycleGuard
    split <;> simp_all
  · intro tbl arg
    unfold get_variable
    cases tbl.find? (fun kv => keyMatches kv.1 arg) <;> simp

/-! ## Claim C2 -/

/-- C2: concrete evaluation of the uniform upload loop.  A BOOL variable
with a bound value and a found location is pushed with glUniform1i, FLOAT
with glUniform1f, and the vector types with their matching 2/3/4-component
variants; a found-location INT variable produces no upload at all, because
the INT test of the dispatch chain compares the shadowing Python builtin
(see builtinTypeIsEnumINT) instead of the declared type; a variable whose
location is not found, or whose value is None, is silently skipped. -/
theorem c2_uniform_dispatch_evidence :
    uniformUploads [(⟨"x", .INT, .vnone⟩, .vi32 5)] (fun _ => 0) = []
    ∧ uniformUploads [(⟨"b", .BOOL, .vnone⟩, .vi32 1)] (fun _ => 0)
        = [⟨0, .u1i, [.vi32 1]⟩]
    ∧ uniformUploads [(⟨"f", .FLOAT, .vnone⟩, .vf32 2)] (fun _ => 0)
        = [⟨0, .u1f, [.vf32 2]⟩]
    ∧ uniformUploads [(⟨"i2", .INT_2, .vnone⟩, .list [.i32 1, .i32 2])] (fun _ => 4)
        = [⟨4, .u2i, [.vi32 1, .vi32 2]⟩]
    ∧ uniformUploads [(⟨"i3", .INT_3, .vnone⟩, .list [.i32 1, .i32 2, .i32 3])]
        (fun _ => 0) = [⟨0, .u3i, [.vi32 1, .vi32 2, .vi32 3]⟩]
    ∧ uniformUploads [(⟨"i4", .INT_4, .vnone⟩, .list [.i32 1, .i32 2, .i32 3, .i32 4])]
        (fun _ => 0) = [⟨0, .u4i, [.vi32 1, .vi32 2, .vi32 3, .vi32 4]⟩]
    ∧ uniformUploads [(⟨"f2", .FLOAT_2, .vnone⟩, .list [.f32 1, .f32 2])]
        (fun _ => 0) = [⟨0, .u2f, [.vf32 1, .vf32 2]⟩]
    ∧ uniformUploads [(⟨"f3", .FLOAT_3, .vnone⟩, .list [.f32 1, .f32 2, .f32 3])]
        (fun _ => 0) = [⟨0, .u3f, [.vf32 1, .vf32 2, .vf32 3]⟩]
    ∧ uniformUploads [(⟨"f4", .FLOAT_4, .vnone⟩, .list [.f32 1, .f32 2, .f32 3, .f32 4])]
        (fun _ => 0) = [⟨0, .u4f, [.vf32 1, .vf32 2, .vf32 3, .vf32 4]⟩]
    ∧ uniformUploads [(⟨"b", .BOOL, .vnone⟩, .vi32 1)] (fun _ => -1) = []
    ∧ uniformUploads [(⟨"b", .BOOL, .vnone⟩, .vnone)] (fun _ => 0) = [] := by
  decide

/-! ## Claim C3 -/

/-- C3 counterexample: on a declared FLOAT_2 variable, set_variable with
the 3-element list [1, 2, 3] succeeds, silently storing a 3-component
float list; no variable-type error of any kind is raised (none even
exists in the source). -/
theorem c3_counterexample :
    set_variable [(⟨"v", .FLOAT_2, .vnone⟩, .vnone)] (.str "v")
        (.list [.int 1, .int 2, .int 3])
      = .ok [(⟨"v", .FLOAT_2, .vnone⟩, .list [.f32 1, .f32 2, .f32 3])] := by
  decide

/-- C3 (amended): set_variable performs no arity validation.  For a
declared vector-typed variable and any list value whose elements convert,
set_variable succeeds and stores the elementwise-coerced list with exactly
the same component count as supplied, whatever that count is; no
variable-type arity error is raised. -/
theorem c3_no_arity_validation (rest : VarTbl) (name : String)
    (ty : ShaderVariableType) (dv old : PyVal) (xs ys : List PyScalar)
    (hconv :
      ((ty = .INT_2 ∨ ty = .INT_3 ∨ ty = .INT_4)
        ∧ coerceList npInt32Scalar xs = some ys)
      ∨ ((ty = .FLOAT_2 ∨ ty = .FLOAT_3 ∨ ty = .FLOAT_4)
        ∧ coerceList npFloat32Scalar xs = some ys)) :
    set_variable ((⟨name, ty, dv⟩, old) :: rest) (.str name) (.list xs)
      = .ok ((⟨name, ty, dv⟩, .list ys) :: rest)
    ∧ ys.length = xs.length := by
  have hmatch : keyMatches ⟨name, ty, dv⟩ (.str name) = true := by
    simp [keyMatches, dataclassEqB, VarArg.pyStrOf]
  constructor
  · simp only [set_variable, hmatch, if_pos]
    rcases hconv with ⟨hty, hc⟩ | ⟨hty, hc⟩ <;>
      rcases hty with rfl | rfl | rfl <;>
        simp [coerceForType, hc, excMap_ok]
  · rcases hconv with ⟨_, hc⟩ | ⟨_, hc⟩ <;> exact coerceList_length _ _ _ hc

/-! ## String splicing lemmas for claim C1 -/

/-- The scanner maps the empty string to itself at any fuel. -/
theorem replaceAllGo_nil (pat rep : List Char) (fuel : ℕ) :
    replaceAllGo pat rep fuel [] = [] := by
  cases fuel <;> rfl

/-- One scanner step at positive fuel. -/
theorem replaceAllGo_succ_cons (pat rep : List Char) (f : ℕ) (a : Char) (as : List Char) :
    replaceAllGo pat rep (f + 1) (a :: as)
      = if pat ≠ [] ∧ pat.isPrefixOf (a :: as) then
          rep ++ replaceAllGo pat rep f ((a :: as).drop pat.length)
        else a :: replaceAllGo pat rep f as := rfl

/-- Any two fuels at least the length of the input give the same scanner
result: the fuel is an artifact of the structural recursion. -/
theorem replaceAllGo_fuel_irrel (pat rep : List Char) :
    ∀ (f1 f2 : ℕ) (s : List Char), s.length ≤ f1 → s.length ≤ f2 →
      replaceAllGo pat rep f1 s = replaceAllGo pat rep f2 s := by
  intro f1
  induction f1 with
  | zero =>
    intro f2 s hs1 _
    have hs : s = [] := List.length_eq_zero.mp (Nat.le_zero.mp hs1)
    subst hs
    rw [replaceAllGo_nil, replaceAllGo_nil]
  | succ f1 ih =>
    intro f2 s hs1 hs2
    cases s with
    | nil => rw [replaceAllGo_nil, replaceAllGo_nil]
    | cons a as =>
      cases f2 with
      | zero => simp at hs2
      | succ f2 =>
        rw [replaceAllGo_succ_cons, replaceAllGo_succ_cons]
        simp only [List.length_cons] at hs1 hs2
        by_cases h : pat ≠ [] ∧ pat.isPrefixOf (a :: as) = true
        · rw [if_pos h, if_pos h]
          have hp : 0 < pat.length := List.length_pos.mpr h.1
          have hd : ((a :: as).drop pat.length).length = as.length + 1 - pat.length := by
            simp [List.length_drop]
          congr 1
          exact ih f2 _ (by omega) (by omega)
        · rw [if_neg h, if_neg h]
          congr 1
          exact ih f2 as (by omega) (by omega)

/-- Unfolding replaceAll at a matching position. -/
theorem replaceAll_cons_pos (pat rep : List Char) (a : Char) (as : List Char)
    (h1 : pat ≠ []) (h2 : pat.isPrefixOf (a :: as) = true) :
    replaceAll (a :: as) pat rep
      = rep ++ replaceAll ((a :: as).drop pat.length) pat rep := by
  show replaceAllGo pat rep (as.length + 1) (a :: as) = _
  rw [replaceAllGo_succ_cons, if_pos ⟨h1, h2⟩]
  congr 1
  apply replaceAllGo_fuel_irrel
  · have hp : 0 < pat.length := List.length_pos.mpr h1
    simp only [List.length_drop, List.length_cons]
    omega
  · exact Nat.le_refl _

/-- Unfolding replaceAll at a non-matching position. -/
theorem replaceAll_cons_neg (pat rep : List Char) (a : Char) (as : List Char)
    (h : ¬ (pat ≠ [] ∧ pat.isPrefixOf (a :: as) = true)) :
    replaceAll (a :: as) pat rep = a :: replaceAll as pat rep := by
  show replaceAllGo pat rep (as.length + 1) (a :: as) = _
  rw [replaceAllGo_succ_cons, if_neg h]
  rfl

/-- The index-k element of a list is the head of the k-dropped list. -/
theorem get?_eq_head?_drop (l : List Char) (k : ℕ) : l.get? k = (l.drop k).head? := by
  induction l generalizing k with
  | nil => cases k <;> rfl
  | cons a as ih => cases k with
    | zero => rfl
    | succ k => simpa using ih k

/-- No occurrence of pat begins at any position strictly inside u when u
is followed by w. -/
def noStartIn (u w pat : List Char) : Prop :=
  ∀ k, k < u.length → ¬ pat.isPrefixOf ((u ++ w).drop k) = true

/-- noStartIn splits along an append of the scanned prefix. -/
theorem noStartIn_append (a b w pat : List Char)
    (h1 : noStartIn a (b ++ w) pat) (h2 : noStartIn b w pat) :
    noStartIn (a ++ b) w pat := by
  intro k hk
  rw [List.append_assoc]
  by_cases hka : k < a.length
  · exact h1 k hka
  · have hres := h2 (k - a.length) (by rw [List.length_append] at hk; omega)
    rw [List.drop_append_eq_append_drop,
      List.drop_eq_nil_of_le (le_of_not_lt hka), List.nil_append]
    exact hres

/-- A pattern whose first character does not occur in u cannot begin at
any position inside u. -/
theorem noStartIn_char (a w pat : List Char) (c : Char)
    (hc : pat.head? = some c) (hnotin : c ∉ a) : noStartIn a w pat := by
  intro k hk hpre
  obtain ⟨p, ps, rfl⟩ : ∃ p ps, pat = p :: ps := by
    cases pat with
    | nil => simp at hc
    | cons p ps => exact ⟨p, ps, rfl⟩
  have hpc : p = c := by simpa using hc
  subst hpc
  cases hdrop : (a ++ w).drop k with
  | nil => rw [hdrop] at hpre; simp [List.isPrefixOf] at hpre
  | cons b bs =>
    rw [hdrop] at hpre
    simp only [List.isPrefixOf, Bool.and_eq_true, beq_iff_eq] at hpre
    have hget : (a ++ w).get? k = some b := by
      rw [get?_eq_head?_drop, hdrop]
      rfl
    rw [List.get?_append hk] at hget
    exact hnotin (hpre.1 ▸ List.get?_mem hget)

/-- A pattern cannot prefix a string whose first n characters differ from
its own (n at most the pattern length). -/
theorem not_isPrefixOf_of_take_ne (p y : List Char) (n : ℕ)
    (hlen : n ≤ p.length) (hne : p.take n ≠ y.take n) :
    ¬ p.isPrefixOf y = true := by
  intro hpre
  rw [List.isPrefixOf_iff_prefix] at hpre
  rcases hpre with ⟨t, rfl⟩
  exact hne (by rw [List.take_append_of_le_length hlen])

/-- A pattern cannot prefix w ++ rest when one of its characters within
the w-region does not occur in w. -/
theorem not_isPrefixOf_of_get (p w rest : List Char) (i : ℕ) (c : Char)
    (hp : p.get? i = some c) (hi : i < w.length) (hnotin : c ∉ w) :
    ¬ p.isPrefixOf (w ++ rest) = true := by
  intro hpre
  rw [List.isPrefixOf_iff_prefix] at hpre
  rcases hpre with ⟨t, ht⟩
  have hip : i < p.length := by
    by_contra hle
    rw [List.get?_eq_none.mpr (le_of_not_lt hle)] at hp
    cases hp
  have hwr : (w ++ rest).get? i = some c := by
    rw [← ht, List.get?_append hip]
    exact hp
  rw [List.get?_append hi] at hwr
  exact hnotin (List.get?_mem hwr)

/-- noStartIn for a marker-shaped block (a percent sign, an interior free
of percent signs, a percent sign): no occurrence of a percent-headed
pattern can begin at any interior position, occurrence at position 0 is
excluded by the given mismatch, and occurrence at the final percent sign
is excluded by the given tail condition. -/
theorem noStartIn_marker (mid w pat : List Char)
    (hmid : '%' ∉ mid)
    (hpat : pat.head? = some '%')
    (hk0 : ¬ pat.isPrefixOf (('%' :: mid ++ ['%']) ++ w) = true)
    (hlast : ¬ (pat.drop 1).isPrefixOf w = true) :
    noStartIn ('%' :: mid ++ ['%']) w pat := by
  intro k hk hpre
  obtain ⟨p, ps, rfl⟩ : ∃ p ps, pat = p :: ps := by
    cases pat with
    | nil => simp at hpat
    | cons p ps => exact ⟨p, ps, rfl⟩
  have hpc : p = '%' := by simpa using hpat
  subst hpc
  have hklen : ('%' :: mid ++ ['%']).length = mid.length + 2 := by simp
  rw [hklen] at hk
  rcases Nat.eq_zero_or_pos k with rfl | hkpos
  · exact hk0 (by simpa using hpre)
  · by_cases hklast : k = mid.length + 1
    · subst hklast
      have hsplit : ('%' :: mid ++ ['%']) ++ w = ('%' :: mid) ++ ('%' :: w) := by
        simp
      have hdrop : ((('%' :: mid ++ ['%']) ++ w).drop (mid.length + 1)) = '%' :: w := by
        rw [hsplit]
        have hlen : ('%' :: mid).length = mid.length + 1 := by simp
        rw [← hlen, List.drop_left]
      rw [hdrop] at hpre
      simp only [List.isPrefixOf, Bool.and_eq_true, beq_iff_eq] at hpre
      exact hlast (by simpa using hpre.2)
    · -- interior position: the character there lies in mid, hence is not
      -- a percent sign, yet a match would need one
      have hget : (('%' :: mid ++ ['%']) ++ w).get? k = some '%' := by
        rw [get?_eq_head?_drop]
        cases hdrop : ((('%' :: mid ++ ['%']) ++ w).drop k) with
        | nil => rw [hdrop] at hpre; simp [List.isPrefixOf] at hpre
        | cons b bs =>
          rw [hdrop] at hpre
          simp only [List.isPrefixOf, Bool.and_eq_true, beq_iff_eq] at hpre
          rw [hpre.1]
          rfl
      have hkM : k < ('%' :: mid ++ ['%']).length := by rw [hklen]; omega
      rw [List.get?_append hkM] at hget
      obtain ⟨k1, rfl⟩ : ∃ k1, k = k1 + 1 := ⟨k - 1, by omega⟩
      have hget2 : (mid ++ ['%']).get? k1 = some '%' := by simpa using hget
      have hk1 : k1 < mid.length := by omega
      rw [List.get?_append hk1] at hget2
      exact hmid (List.get?_mem hget2)

/-- The splice law of replaceAll: when no occurrence of the pattern
begins inside u, the first occurrence is the explicit one after u, it is
replaced, and scanning resumes on v alone. -/
theorem replaceAll_splice (pat rep : List Char) (hpat : pat ≠ []) :
    ∀ u v, noStartIn u (pat ++ v) pat →
      replaceAll (u ++ (pat ++ v)) pat rep = u ++ rep ++ replaceAll v pat rep := by
  intro u
  induction u with
  | nil =>
    intro v _
    simp only [List.nil_append]
    obtain ⟨p, ps, rfl⟩ : ∃ p ps, pat = p :: ps := by
      cases pat with
      | nil => exact absurd rfl hpat
      | cons p ps => exact ⟨p, ps, rfl⟩
    rw [show (p :: ps) ++ v = p :: (ps ++ v) from rfl,
      replaceAll_cons_pos _ _ _ _ hpat
        (by rw [List.isPrefixOf_iff_prefix]
            exact List.prefix_append (p :: ps) v),
      show p :: (ps ++ v) = (p :: ps) ++ v from rfl, List.drop_left]
  | cons a u' ih =>
    intro v hns
    have h0 := hns 0 (by simp)
    rw [show (a :: u') ++ (pat ++ v) = a :: (u' ++ (pat ++ v)) from rfl] at h0 ⊢
    simp only [List.drop_zero] at h0
    rw [replaceAll_cons_neg _ _ _ _ (by
      rintro ⟨_, hpre⟩
      exact h0 hpre)]
    rw [ih v (by
      intro k hk
      have := hns (k + 1) (by simpa using Nat.succ_lt_succ hk)
      rw [show ((a :: u') ++ (pat ++ v)) = a :: (u' ++ (pat ++ v)) from rfl] at this
      simpa using this)]
    simp

/-- The identity law of replaceAll: a string avoiding the head character
of the pattern is returned unchanged. -/
theorem replaceAll_of_head_not_mem (pat rep : List Char) (c : Char)
    (hc : pat.head? = some c) : ∀ s, c ∉ s → replaceAll s pat rep = s := by
  intro s
  induction s with
  | nil => intro _; rfl
  | cons a as ih =>
    intro hnotin
    obtain ⟨p, ps, rfl⟩ : ∃ p ps, pat = p :: ps := by
      cases pat with
      | nil => simp at hc
      | cons p ps => exact ⟨p, ps, rfl⟩
    have hpc : p = c := by simpa using hc
    subst hpc
    rw [replaceAll_cons_neg _ _ _ _ (by
      rintro ⟨_, hpre⟩
      simp only [List.isPrefixOf, Bool.and_eq_true, beq_iff_eq] at hpre
      exact hnotin (hpre.1 ▸ List.mem_cons_self a as))]
    rw [ih (fun hmem => hnotin (List.mem_cons_of_mem _ hmem))]

/-- Exclusion of a pattern at a marker start by a mismatch within the
first four characters. -/
theorem marker_take4_excl (M w pat : List Char)
    (h4p : 4 ≤ pat.length) (h4M : 4 ≤ M.length)
    (hne : pat.take 4 ≠ M.take 4) : ¬ pat.isPrefixOf (M ++ w) = true :=
  not_isPrefixOf_of_take_ne pat (M ++ w) 4 h4p
    (by rw [List.take_append_of_le_length h4M]; exact hne)

/-- The master splice law of the fragment shader assembly.  For any
template of the shape

  A, uniforms marker, B, functions marker, C, code marker, D

whose text pieces A, B, C, D are free of percent signs (B and C long
enough to cover a marker tail), and for percent-free replacement texts,
the three replace calls of the constructors substitute exactly their own
marker each: the assembled source is the template with the uniform block,
the helper functions and the body spliced at the three marker
positions. -/
theorem assemble_spliced
    (A B C D code fns unis : List Char)
    (hA : '%' ∉ A) (hB : '%' ∉ B) (hC : '%' ∉ C) (hD : '%' ∉ D)
    (hcode : '%' ∉ code) (hfns : '%' ∉ fns) (hunis : '%' ∉ unis)
    (hBlen : 14 ≤ B.length) (hClen : 9 ≤ C.length) :
    replaceAll (replaceAll (replaceAll
        (A ++ markUNIFORMS ++ B ++ markFUNCTIONS ++ C ++ markCODE ++ D)
        markCODE code) markFUNCTIONS fns) markUNIFORMS unis
      = A ++ unis ++ B ++ fns ++ C ++ code ++ D := by
  have hKne : markCODE ≠ [] := by decide
  have hFne : markFUNCTIONS ≠ [] := by decide
  have hUne : markUNIFORMS ≠ [] := by decide
  have hKhead : markCODE.head? = some '%' := by decide
  have hFhead : markFUNCTIONS.head? = some '%' := by decide
  have hUhead : markUNIFORMS.head? = some '%' := by decide
  have hFshape : markFUNCTIONS = '%' :: "__FUNCTIONS__".data ++ ['%'] := by decide
  have hUshape : markUNIFORMS = '%' :: "__UNIFORMS__".data ++ ['%'] := by decide
  -- step 1: the code marker is replaced by the body
  have hnsC : noStartIn C (markCODE ++ D) markCODE :=
    noStartIn_char _ _ _ '%' hKhead hC
  have hnsF : noStartIn markFUNCTIONS (C ++ (markCODE ++ D)) markCODE := by
    rw [hFshape]
    refine noStartIn_marker _ _ _ (by decide) hKhead ?_ ?_
    · rw [← hFshape]
      exact marker_take4_excl _ _ _ (by decide) (by decide) (by decide)
    · exact not_isPrefixOf_of_get _ C (markCODE ++ D) 8 '%' (by decide)
        (by omega) hC
  have hnsU1 : noStartIn markUNIFORMS
      (B ++ (markFUNCTIONS ++ (C ++ (markCODE ++ D)))) markCODE := by
    rw [hUshape]
    refine noStartIn_marker _ _ _ (by decide) hKhead ?_ ?_
    · rw [← hUshape]
      exact marker_take4_excl _ _ _ (by decide) (by decide) (by decide)
    · exact not_isPrefixOf_of_get _ B _ 8 '%' (by decide) (by omega) hB
  have hns1 : noStartIn (A ++ markUNIFORMS ++ B ++ markFUNCTIONS ++ C)
      (markCODE ++ D) markCODE := by
    refine noStartIn_append _ _ _ _ ?_ hnsC
    refine noStartIn_append _ _ _ _ ?_ hnsF
    refine noStartIn_append _ _ _ _ ?_ (noStartIn_char _ _ _ '%' hKhead hB)
    refine noStartIn_append _ _ _ _ (noStartIn_char _ _ _ '%' hKhead hA) ?_
    exact hnsU1
  have hstep1 : replaceAll
      (A ++ markUNIFORMS ++ B ++ markFUNCTIONS ++ C ++ markCODE ++ D)
      markCODE code
      = A ++ markUNIFORMS ++ B ++ markFUNCTIONS ++ C ++ code ++ D := by
    rw [show A ++ markUNIFORMS ++ B ++ markFUNCTIONS ++ C ++ markCODE ++ D
        = (A ++ markUNIFORMS ++ B ++ markFUNCTIONS ++ C) ++ (markCODE ++ D)
      from by rw [List.append_assoc]]
    rw [replaceAll_splice markCODE code hKne _ D hns1,
      replaceAll_of_head_not_mem markCODE code '%' hKhead D hD]
  -- step 2: the functions marker is replaced by the helper functions
  have hnsU2 : noStartIn markUNIFORMS
      (B ++ (markFUNCTIONS ++ (C ++ code ++ D))) markFUNCTIONS := by
    rw [hUshape]
    refine noStartIn_marker _ _ _ (by decide) hFhead ?_ ?_
    · rw [← hUshape]
      exact marker_take4_excl _ _ _ (by decide) (by decide) (by decide)
    · exact not_isPrefixOf_of_get _ B _ 13 '%' (by decide) (by omega) hB
  have hns2 : noStartIn (A ++ markUNIFORMS ++ B)
      (markFUNCTIONS ++ (C ++ code ++ D)) markFUNCTIONS := by
    refine noStartIn_append _ _ _ _ ?_ (noStartIn_char _ _ _ '%' hFhead hB)
    refine noStartIn_append _ _ _ _ (noStartIn_char _ _ _ '%' hFhead hA) ?_
    exact hnsU2
  have hstep2 : replaceAll
      (A ++ markUNIFORMS ++ B ++ markFUNCTIONS ++ C ++ code ++ D)
      markFUNCTIONS fns
      = A ++ markUNIFORMS ++ B ++ fns ++ (C ++ code ++ D) := by
    rw [show A ++ markUNIFORMS ++ B ++ markFUNCTIONS ++ C ++ code ++ D
        = (A ++ markUNIFORMS ++ B) ++ (markFUNCTIONS ++ (C ++ code ++ D))
      from by simp [List.append_assoc]]
    rw [replaceAll_splice markFUNCTIONS fns hFne _ _ hns2,
      replaceAll_of_head_not_mem markFUNCTIONS fns '%' hFhead _
        (by simp [List.mem_append]; tauto)]
  -- step 3: the uniforms marker is replaced by the uniform block
  have hns3 : noStartIn A
      (markUNIFORMS ++ (B ++ fns ++ (C ++ code ++ D))) markUNIFORMS :=
    noStartIn_char _ _ _ '%' hUhead hA
  have hstep3 : replaceAll
      (A ++ markUNIFORMS ++ B ++ fns ++ (C ++ code ++ D))
      markUNIFORMS unis
      = A ++ unis ++ (B ++ fns ++ (C ++ code ++ D)) := by
    rw [show A ++ markUNIFORMS ++ B ++ fns ++ (C ++ code ++ D)
        = A ++ (markUNIFORMS ++ (B ++ fns ++ (C ++ code ++ D)))
      from by simp [List.append_assoc]]
    rw [replaceAll_splice markUNIFORMS unis hUne _ _ hns3,
      replaceAll_of_head_not_mem markUNIFORMS unis '%' hUhead _
        (by simp [List.mem_append]; tauto)]
  rw [hstep1, hstep2, hstep3]
  simp [List.append_assoc]

/-- The digit renderer maps everything of 16 and above to the asterisk
placeholder. -/
theorem digitChar_eq_star (n : ℕ) (h : 16 ≤ n) : Nat.digitChar n = '*' := by
  obtain ⟨m, rfl⟩ : ∃ m, n = m + 16 := ⟨n - 16, by omega⟩
  rfl

/-- Decimal digit characters are never a percent sign. -/
theorem digitChar_ne_percent (n : ℕ) : Nat.digitChar n ≠ '%' := by
  rcases Nat.lt_or_ge n 16 with h | h
  · interval_cases n <;> decide
  · rw [digitChar_eq_star n h]
    decide

/-- The digit expansion worker never emits a percent sign (given a
percent-free accumulator). -/
theorem toDigitsCore_ne_percent (b : ℕ) :
    ∀ (fuel n : ℕ) (ds : List Char), (∀ c ∈ ds, c ≠ '%') →
      ∀ c ∈ Nat.toDigitsCore b fuel n ds, c ≠ '%' := by
  intro fuel
  induction fuel with
  | zero =>
    intro n ds hds c hc
    exact hds c hc
  | succ fuel ih =>
    intro n ds hds c hc
    simp only [Nat.toDigitsCore] at hc
    split at hc
    · rcases List.mem_cons.mp hc with rfl | hmem
      · exact digitChar_ne_percent _
      · exact hds c hmem
    · refine ih _ _ ?_ c hc
      intro c2 hc2
      rcases List.mem_cons.mp hc2 with rfl | hmem
      · exact digitChar_ne_percent _
      · exact hds c2 hmem

/-- Decimal renderings of naturals contain no percent sign. -/
theorem toDigits_ne_percent (n : ℕ) : ∀ c ∈ Nat.toDigits 10 n, c ≠ '%' :=
  toDigitsCore_ne_percent 10 (n + 1) n [] (by simp)

/-- Characters of a newline-join come from a line or are the newline. -/
theorem mem_joinNl (L : List (List Char)) (c : Char) :
    c ∈ joinNl L → (∃ l ∈ L, c ∈ l) ∨ c = '\n' := by
  induction L with
  | nil => intro h; simp [joinNl] at h
  | cons x xs ih =>
    cases xs with
    | nil =>
      intro h
      exact Or.inl ⟨x, by simp, by simpa [joinNl] using h⟩
    | cons y ys =>
      intro h
      rw [joinNl] at h
      rcases List.mem_append.mp h with hx | hrest
      · exact Or.inl ⟨x, by simp, hx⟩
      · rcases List.mem_cons.mp hrest with hnl | hj
        · exact Or.inr hnl
        · rcases ih hj with ⟨l, hl, hc⟩ | hnl
          · exact Or.inl ⟨l, List.mem_cons_of_mem _ hl, hc⟩
          · exact Or.inr hnl

/-- Every character of every line of a splitlines result occurs in the
original string. -/
theorem pySplitlines_chars (n : ℕ) :
    ∀ s : List Char, s.length ≤ n → ∀ l ∈ pySplitlines s, ∀ c ∈ l, c ∈ s := by
  induction n with
  | zero =>
    intro s hs l hl
    have hnil : s = [] := List.length_eq_zero.mp (Nat.le_zero.mp hs)
    subst hnil
    rw [pySplitlines] at hl
    simp at hl
  | succ n ih =>
    intro s hs l hl c hc
    rw [pySplitlines] at hl
    by_cases hse : s = []
    · rw [if_pos hse] at hl; simp at hl
    · rw [if_neg hse] at hl
      split at hl
      · rcases List.mem_singleton.mp hl with rfl
        exact (List.takeWhile_sublist _).subset hc
      · rename_i d rs heq
        rcases List.mem_cons.mp hl with rfl | hl2
        · exact (List.takeWhile_sublist _).subset hc
        · have hrslen : rs.length ≤ n := by
            have h1 : (s.dropWhile (fun c => c ≠ '\n')).length ≤ s.length :=
              (List.dropWhile_sublist _).length_le
            rw [heq] at h1
            simp only [List.length_cons] at h1
            omega
          have hcrs : c ∈ rs := ih rs hrslen l hl2 c hc
          have hsub : List.Sublist rs s := by
            have h2 : List.Sublist (d :: rs) s := heq ▸ List.dropWhile_sublist _
            exact (List.sublist_cons_self d rs).trans h2
          exact hsub.subset hcrs

/-- The second component of an enum entry is a list member. -/
theorem snd_mem_of_mem_enum {α : Type} (l : List α) (p : ℕ × α)
    (h : p ∈ l.enum) : p.2 ∈ l := by
  have := List.mem_map_of_mem Prod.snd h
  rwa [List.enum_map_snd] at this

/-- The line-number correction introduces no percent sign. -/
theorem lineTag_percent_free (code : List Char) (h : '%' ∉ code) :
    '%' ∉ lineTag code := by
  intro hmem
  rcases mem_joinNl _ _ hmem with ⟨l, hl, hc⟩ | hnl
  · rcases List.mem_map.mp hl with ⟨⟨i, x⟩, hmemenum, rfl⟩
    simp only [lineTagLine, List.append_assoc, List.mem_append, List.mem_cons] at hc
    rcases hc with hc1 | hc2 | hc3 | hc4
    · exact absurd hc1 (by decide)
    · exact toDigits_ne_percent i '%' hc2 rfl
    · exact absurd hc3 (by decide)
    · have hx : x ∈ pySplitlines code :=
        snd_mem_of_mem_enum _ (i, x) hmemenum
      exact h (pySplitlines_chars code.length code (Nat.le_refl _) x hx '%' hc4)
  · exact (by decide : ('%' : Char) ≠ '\n') hnl

/-- GLSL type names contain no percent sign. -/
theorem glsl_type_percent_free (t : ShaderVariableType) :
    '%' ∉ (t.glsl_type).data := by
  cases t <;> decide

/-- Enum member names contain no percent sign. -/
theorem enumName_percent_free (t : ShaderVariableType) :
    '%' ∉ (t.enumName).data := by
  cases t <;> decide

/-- A generated uniform declaration line contains no percent sign when
the variable name contains none. -/
theorem uniformLine_percent_free (i : ℕ) (v : ShaderVariable)
    (hname : '%' ∉ v.name.data) : '%' ∉ uniformLine i v := by
  intro hmem
  simp only [uniformLine, List.append_assoc, List.mem_append,
    List.mem_singleton] at hmem
  rcases hmem with h1 | h2 | h3 | h4 | h5 | h6 | h7 | h8 | h9
  · exact absurd h1 (by decide)
  · exact toDigits_ne_percent (i + 3) '%' h2 rfl
  · exact absurd h3 (by decide)
  · exact glsl_type_percent_free v.type h4
  · exact absurd h5 (by decide)
  · exact enumName_percent_free v.type h6
  · exact absurd h7 (by decide)
  · exact hname h8
  · exact absurd h9 (by decide)

/-- The generated uniform declaration block contains no percent sign when
no variable name contains one. -/
theorem uniformBlock_percent_free (vars : List ShaderVariable)
    (h : ∀ v ∈ vars, '%' ∉ v.name.data) : '%' ∉ uniformBlock vars := by
  intro hmem
  rcases mem_joinNl _ _ hmem with ⟨l, hl, hc⟩ | hnl
  · rcases List.mem_map.mp hl with ⟨⟨i, v⟩, hmemenum, rfl⟩
    exact uniformLine_percent_free i v
      (h v (snd_mem_of_mem_enum _ (i, v) hmemenum)) hc
  · exact (by decide : ('%' : Char) ≠ '\n') hnl

/-- The i-th entry of the generated uniform declaration list is the
declaration of the i-th variable at binding slot i + 3. -/
theorem uniformLines_get? (vars : List ShaderVariable) (i : ℕ)
    (v : ShaderVariable) (h : vars.get? i = some v) :
    (uniformLines vars).get? i = some (uniformLine i v) := by
  unfold uniformLines
  rw [List.get?_map, List.get?_enum, h]
  rfl

/-! ## Claim C1 -/

set_option maxRecDepth 4000 in
/-- C1 counterexample: the claim asserts that the assembled
fragment-shader source always ends the entry point with an unconditional
clamp of out_color, and cites the legacy CVGLPixelShader.py template as a
source; but the source assembled by that module for a concrete caller
body contains no occurrence of clamp at all. -/
theorem c1_counterexample :
    hasMatch (assembleLegacyFragment "out_color.r = 1.0;".data [] [])
      "clamp".data = false := by
  decide

set_option maxRecDepth 4000 in
/-- C1 (amended): in both modules the assembled fragment shader is the
fixed template with the uniform declaration block spliced at the uniforms
marker (between the width/height uniforms at locations 1 and 2 and the
sampler at binding 0), the helper functions spliced before the entry
point, and the caller body spliced inside the entry point directly after
the default assignment of the sampled color (fragT3 / legT3 end with that
assignment); the i-th uniform declaration line places the i-th variable
at binding slot i + 3.  In the package template (pixel_shader.py) the
body — spliced in line-number-tagged form — is followed by the
unconditional final clamp contained in fragT4; in the legacy template
(CVGLPixelShader.py) the body is spliced verbatim and the entry point
ends immediately after it: legT4 contains no clamp.  The percent
hypotheses exclude caller text that itself contains substitution
markers. -/
theorem c1_fragment_assembly (body helpers : List Char)
    (vars : List ShaderVariable) (i : ℕ) (v : ShaderVariable)
    (hb : '%' ∉ body) (hh : '%' ∉ helpers)
    (hv : ∀ w ∈ vars, '%' ∉ w.name.data)
    (hiv : vars.get? i = some v) :
    assembleFragment body helpers vars
      = fragT1.data ++ uniformBlock vars ++ fragT2.data ++ helpers
        ++ fragT3.data ++ lineTag body ++ fragT4.data
    ∧ assembleLegacyFragment body helpers vars
      = legT1.data ++ uniformBlock vars ++ legT2.data ++ helpers
        ++ legT3.data ++ body ++ legT4.data
    ∧ (uniformLines vars).get? i = some (uniformLine i v)
    ∧ hasMatch fragT3.data "out_color = texture(image, coords);".data = true
    ∧ hasMatch fragT4.data "out_color = clamp(out_color, 0, 1);".data = true
    ∧ hasMatch legT3.data "out_color = texture(image, coords);".data = true
    ∧ hasMatch legT4.data "clamp".data = false := by
  have hfrag : assembleFragment body helpers vars
      = replaceAll (replaceAll (replaceAll
          (fragT1.data ++ markUNIFORMS ++ fragT2.data ++ markFUNCTIONS
            ++ fragT3.data ++ markCODE ++ fragT4.data)
          markCODE (lineTag body)) markFUNCTIONS helpers)
          markUNIFORMS (uniformBlock vars) := rfl
  have hleg : assembleLegacyFragment body helpers vars
      = replaceAll (replaceAll (replaceAll
          (legT1.data ++ markUNIFORMS ++ legT2.data ++ markFUNCTIONS
            ++ legT3.data ++ markCODE ++ legT4.data)
          markCODE body) markFUNCTIONS helpers)
          markUNIFORMS (uniformBlock vars) := rfl
  refine ⟨?_, ?_, uniformLines_get? vars i v hiv, by decide, by decide,
    by decide, by decide⟩
  · rw [hfrag]
    exact assemble_spliced _ _ _ _ _ _ _
      (by decide) (by decide) (by decide) (by decide)
      (lineTag_percent_free body hb) hh (uniformBlock_percent_free vars hv)
      (by
        have h14 : (fragT2.data.take 14).length = 14 := by decide
        rw [List.length_take] at h14
        omega)
      (by decide)
  · rw [hleg]
    exact assemble_spliced _ _ _ _ _ _ _
      (by decide) (by decide) (by decide) (by decide)
      hb hh (uniformBlock_percent_free vars hv)
      (by decide) (by decide)

set_option maxRecDepth 4000 in
/-- Witness for C1: one variable named gamma, a one-statement body and a
blank helper text. -/
theorem c1_fragment_assembly_witness :
    assembleFragment "out_color.rgb *= 0.5;".data " ".data
        [⟨"gamma", .FLOAT, .vnone⟩]
      = fragT1.data ++ uniformBlock [⟨"gamma", .FLOAT, .vnone⟩] ++ fragT2.data
        ++ " ".data ++ fragT3.data ++ lineTag "out_color.rgb *= 0.5;".data
        ++ fragT4.data
    ∧ assembleLegacyFragment "out_color.rgb *= 0.5;".data " ".data
        [⟨"gamma", .FLOAT, .vnone⟩]
      = legT1.data ++ uniformBlock [⟨"gamma", .FLOAT, .vnone⟩] ++ legT2.data
        ++ " ".data ++ legT3.data ++ "out_color.rgb *= 0.5;".data ++ legT4.data
    ∧ (uniformLines [⟨"gamma", .FLOAT, .vnone⟩]).get? 0
        = some (uniformLine 0 ⟨"gamma", .FLOAT, .vnone⟩)
    ∧ hasMatch fragT3.data "out_color = texture(image, coords);".data = true
    ∧ hasMatch fragT4.data "out_color = clamp(out_color, 0, 1);".data = true
    ∧ hasMatch legT3.data "out_color = texture(image, coords);".data = true
    ∧ hasMatch legT4.data "clamp".data = false :=
  c1_fragment_assembly "out_color.rgb *= 0.5;".data " ".data
    [⟨"gamma", .FLOAT, .vnone⟩] 0 ⟨"gamma", .FLOAT, .vnone⟩
    (by decide) (by decide) (by decide) (by decide)

/-- Witness for C3 at a FLOAT_2 variable receiving three components. -/
theorem c3_no_arity_validation_witness :
    (set_variable [(⟨"v", .FLOAT_2, .vnone⟩, .vnone)] (.str "v")
        (.list [.int 1, .int 2, .int 3])
      = .ok [(⟨"v", .FLOAT_2, .vnone⟩, .list [.f32 1, .f32 2, .f32 3])])
    ∧ ([PyScalar.f32 1, PyScalar.f32 2, PyScalar.f32 3].length
        = [PyScalar.int 1, PyScalar.int 2, PyScalar.int 3].length) :=
  c3_no_arity_validation [] "v" .FLOAT_2 .vnone .vnone
    [.int 1, .int 2, .int 3] [.f32 1, .f32 2, .f32 3]
    (Or.inr ⟨Or.inl rfl, by decide⟩)

/-! ## Claim C6 -/

/-- C6 counterexample: an array with zero elements (shape 2 by 0, data
empty) does not fail with the empty-image error: the emptiness check of
apply tests only len(image), the size of the first dimension, which is 2
here.  Validation passes and the array is broadcast to shape 2 by 0 by
3. -/
theorem c6_counterexample :
    (([2, 0] : List ℕ).prod = 0)
    ∧ applyValidate 1 ⟨[2, 0], .uint8, []⟩ = .ok ⟨[2, 0, 3], .uint8, []⟩ := by
  constructor
  · decide
  · decide

/-- C6 (amended): the validation chain of apply on a live instance, in
order: a 0-dimensional array raises a TypeError from len(); an array
whose first dimension is zero fails with the empty-image error (arrays
with zero elements but nonzero first dimension are not rejected); an
array with neither 2 nor 3 dimensions fails with the dimensionality
error; a 3-D array with a channel count other than 1 or 3 fails with the
channel-count error (its uint8 coercion, when needed, happens before this
check); and every array that passes validation comes out as a 3-channel
uint8 array. -/
theorem c6_validation_behaviour (inst : Int) (img : NDArray)
    (hinst : 1 ≤ inst) :
    (img.shape = [] → applyValidate inst img = .error .typeError)
    ∧ (∀ d0 rest, img.shape = d0 :: rest → d0 = 0 →
        applyValidate inst img = .error .emptyImage)
    ∧ (∀ d0 rest, img.shape = d0 :: rest → d0 ≠ 0 →
        img.shape.length ≠ 2 → img.shape.length ≠ 3 →
        applyValidate inst img = .error .invalidDimensionality)
    ∧ (∀ d0 d1 c, img.shape = [d0, d1, c] → d0 ≠ 0 → c ≠ 1 → c ≠ 3 →
        applyValidate inst img = .error .unsupportedChannelCount)
    ∧ (∀ out, applyValidate inst img = .ok out →
        out.dtype = .uint8 ∧ out.shape.length = 3 ∧ out.shape.getD 2 0 = 3) := by
  have hguard : ¬ inst < 1 := by omega
  obtain ⟨sh, dt, da⟩ := img
  refine ⟨?_, ?_, ?_, ?_, ?_⟩
  · intro hsh
    simp only at hsh
    subst hsh
    simp [applyValidate, hguard]
  · intro d0 rest hsh h0
    simp only at hsh
    subst hsh
    subst h0
    simp [applyValidate, hguard]
  · intro d0 rest hsh h0 hl2 hl3
    simp only at hsh hl2 hl3
    subst hsh
    simp only [List.length_cons] at hl2 hl3
    simp [applyValidate, hguard, h0]
    intro h1 h2
    exfalso
    omega
  · intro d0 d1 c hsh h0 hc1 hc3
    simp only at hsh
    subst hsh
    by_cases hdt : dt = .uint8 <;>
      simp [applyValidate, hguard, h0, hc1, hc3, hdt, astypeU8]
  · intro out hout
    obtain ⟨osh, odt, oda⟩ := out
    rcases sh with _ | ⟨d0, sh1⟩
    · simp [applyValidate, hguard] at hout
    · rcases sh1 with _ | ⟨d1, sh2⟩
      · by_cases h0 : d0 = 0 <;>
          simp [applyValidate, hguard, h0] at hout
      · rcases sh2 with _ | ⟨c, sh3⟩
        · -- shape d0, d1: the 2-D broadcast path
          by_cases h0 : d0 = 0
          · simp [applyValidate, hguard, h0] at hout
          · by_cases hdt : dt = .uint8 <;>
            · simp [applyValidate, hguard, h0, hdt, astypeU8,
                repeatChannel3] at hout
              obtain ⟨h1, h2, _⟩ := hout
              subst h1
              subst h2
              simp
        · rcases sh3 with _ | ⟨e, sh4⟩
          · -- shape d0, d1, c: single-channel broadcast or pass-through
            by_cases h0 : d0 = 0
            · simp [applyValidate, hguard, h0] at hout
            · by_cases hc1 : c = 1
              · subst hc1
                by_cases hdt : dt = .uint8 <;>
                · simp [applyValidate, hguard, h0, hdt, astypeU8,
                    repeatChannel3] at hout
                  obtain ⟨h1, h2, _⟩ := hout
                  subst h1
                  subst h2
                  simp
              · by_cases hc3 : c = 3
                · subst hc3
                  by_cases hdt : dt = .uint8 <;>
                  · simp [applyValidate, hguard, h0, hc1, hdt,
                      astypeU8] at hout
                    obtain ⟨h1, h2, _⟩ := hout
                    subst h1
                    subst h2
                    simp
                · by_cases hdt : dt = .uint8 <;>
                    simp [applyValidate, hguard, h0, hc1, hc3, hdt,
                      astypeU8] at hout
          · -- four or more dimensions: rejected before broadcasting
            have hcond : ¬ (1 < (d0 :: d1 :: c :: e :: sh4).length
                ∧ (d0 :: d1 :: c :: e :: sh4).length < 4) := by
              simp only [List.length_cons]
              omega
            by_cases h0 : d0 = 0 <;>
              simp [applyValidate, hguard, h0, hcond] at hout

/-- Witness for C6 on four concrete arrays, one per validation
behaviour. -/
theorem c6_validation_behaviour_witness :
    (applyValidate 1 ⟨[], .uint8, [7]⟩ = .error .typeError)
    ∧ (applyValidate 1 ⟨[0, 4], .uint8, []⟩ = .error .emptyImage)
    ∧ (applyValidate 1 ⟨[5], .uint8, [1, 2, 3, 4, 5]⟩
        = .error .invalidDimensionality)
    ∧ (applyValidate 1 ⟨[1, 1, 4], .other, [1, 2, 3, 4]⟩
        = .error .unsupportedChannelCount)
    ∧ ((⟨[1, 1, 3], .uint8, [1, 2, 3]⟩ : NDArray).dtype = .uint8
        ∧ (⟨[1, 1, 3], .uint8, [1, 2, 3]⟩ : NDArray).shape.length = 3
        ∧ (⟨[1, 1, 3], .uint8, [1, 2, 3]⟩ : NDArray).shape.getD 2 0 = 3) := by
  refine ⟨(c6_validation_behaviour 1 ⟨[], .uint8, [7]⟩ (by decide)).1 rfl,
    (c6_validation_behaviour 1 ⟨[0, 4], .uint8, []⟩ (by decide)).2.1
      0 [4] rfl rfl,
    (c6_validation_behaviour 1 ⟨[5], .uint8, [1, 2, 3, 4, 5]⟩ (by decide)).2.2.1
      5 [] rfl (by decide) (by decide) (by decide),
    (c6_validation_behaviour 1 ⟨[1, 1, 4], .other, [1, 2, 3, 4]⟩ (by decide)).2.2.2.1
      1 1 4 rfl (by decide) (by decide) (by decide),
    (c6_validation_behaviour 1 ⟨[1, 1, 3], .uint8, [1, 2, 3]⟩ (by decide)).2.2.2.2
      ⟨[1, 1, 3], .uint8, [1, 2, 3]⟩ (by decide)⟩

/-! ## Claim C7 -/

/-- C7: a 2-D grayscale image, its single-channel 3-D reshape, and its
3-channel broadcast all yield the same validated 3-channel array melting
into the rest of apply, hence apply returns identical results for all
three on the same instance, bindings and GPU behaviour (render and locOf
are arbitrary). -/
theorem c7_grayscale_broadcast_equivalence (inst : Int) (H W : ℕ)
    (g : List Int) (render : List GLUploadCall → NDArray → List Int)
    (locOf : String → Int) (tbl : VarTbl) :
    applyValidate inst ⟨[H, W], .uint8, g⟩
        = applyValidate inst ⟨[H, W, 1], .uint8, g⟩
    ∧ applyValidate inst ⟨[H, W], .uint8, g⟩
        = applyValidate inst ⟨[H, W, 3], .uint8,
            g.flatMap (fun v => List.replicate 3 v)⟩
    ∧ applyResult render locOf tbl inst ⟨[H, W], .uint8, g⟩
        = applyResult render locOf tbl inst ⟨[H, W, 1], .uint8, g⟩
    ∧ applyResult render locOf tbl inst ⟨[H, W], .uint8, g⟩
        = applyResult render locOf tbl inst ⟨[H, W, 3], .uint8,
            g.flatMap (fun v => List.replicate 3 v)⟩ := by
  by_cases hi : inst < 1
  · refine ⟨?_, ?_, ?_, ?_⟩ <;> simp [applyValidate, applyResult, hi]
  · by_cases hH : H = 0
    · refine ⟨?_, ?_, ?_, ?_⟩ <;>
        simp [applyValidate, applyResult, hi, hH]
    · have hA : applyValidate inst ⟨[H, W], .uint8, g⟩
          = .ok ⟨[H, W, 3], .uint8, g.flatMap (fun v => List.replicate 3 v)⟩ := by
        simp [applyValidate, hi, hH, repeatChannel3]
      have hB : applyValidate inst ⟨[H, W, 1], .uint8, g⟩
          = .ok ⟨[H, W, 3], .uint8, g.flatMap (fun v => List.replicate 3 v)⟩ := by
        simp [applyValidate, hi, hH, repeatChannel3]
      have hC : applyValidate inst ⟨[H, W, 3], .uint8,
            g.flatMap (fun v => List.replicate 3 v)⟩
          = .ok ⟨[H, W, 3], .uint8, g.flatMap (fun v => List.replicate 3 v)⟩ := by
        simp [applyValidate, hi, hH]
      refine ⟨by rw [hA, hB], by rw [hA, hC], ?_, ?_⟩ <;>
        · unfold applyResult
          rw [hA]
          first
          | rw [hB]
          | rw [hC]

/-! ## Claim C8 -/

/-- C8 counterexample: lookup also succeeds for a ShaderVariable argument
that is dataclass-equal to no declared variable, whenever its repr string
collides with a declared name.  Here the single declared variable is
named "BOOL b" (with type INT); the argument ShaderVariable named "b" of
type BOOL has repr "BOOL b", so the key.name == str(variable) branch
matches and get_variable returns the stored value, although the claim
demands UnknownVariableError for this argument. -/
theorem c8_counterexample :
    get_variable [(⟨"BOOL b", .INT, .vnone⟩, .vint 7)]
        (.var ⟨"b", .BOOL, .vnone⟩) = .ok (.vint 7)
    ∧ (⟨"b", .BOOL, PyVal.vnone⟩ : ShaderVariable)
        ≠ (⟨"BOOL b", .INT, PyVal.vnone⟩ : ShaderVariable) := by
  constructor
  · decide
  · decide

/-- set_variable on a table without a matching key raises the
unknown-variable error. -/
theorem set_variable_none_unknown (arg : VarArg) (value : PyVal) :
    ∀ tbl : VarTbl, (∀ kv ∈ tbl, ¬ keyMatches kv.1 arg = true) →
      set_variable tbl arg value = .error .unknownVariable := by
  intro tbl
  induction tbl with
  | nil => intro _; rfl
  | cons kv rest ih =>
    intro hall
    rw [set_variable, if_neg (hall kv (List.mem_cons_self _ _)),
      ih (fun kv2 hmem => hall kv2 (List.mem_cons_of_mem _ hmem)), excMap_error]

/-- set_variable on a table containing a matching key does not raise the
unknown-variable error. -/
theorem set_variable_found_not_unknown (arg : VarArg) (value : PyVal) :
    ∀ tbl : VarTbl, (∃ kv ∈ tbl, keyMatches kv.1 arg = true) →
      set_variable tbl arg value ≠ .error .unknownVariable := by
  intro tbl
  induction tbl with
  | nil =>
    intro ⟨kv, hmem, _⟩
    simp at hmem
  | cons kv rest ih =>
    intro ⟨kv0, hmem0, hm0⟩
    rw [set_variable]
    by_cases hm : keyMatches kv.1 arg = true
    · rw [if_pos hm]
      cases hco : coerceForType kv.1.type value with
      | ok w => rw [excMap_ok]; simp
      | error e =>
        have he := coerceForType_error_eq _ _ _ hco
        subst he
        rw [excMap_error]
        simp
    · rw [if_neg hm]
      rcases List.mem_cons.mp hmem0 with rfl | hmem2
      · exact absurd hm0 hm
      · cases hset : set_variable rest arg value with
        | ok r => rw [excMap_ok]; simp
        | error e =>
          rw [excMap_error]
          intro hc
          injection hc with he
          subst he
          exact ih ⟨kv0, hmem2, hm0⟩ hset

/-- C8 (amended): get_variable and set_variable locate a binding iff the
argument is dataclass-equal to a declared variable or its str() equals a
declared name; in particular a declared name string always succeeds, an
undeclared plain name string always fails with the unknown-variable
error (on get and set alike), a dataclass-equal ShaderVariable succeeds,
and a ShaderVariable argument fails with the unknown-variable error
exactly when it is dataclass-equal to no declared variable and its repr
string also collides with no declared name — the repr collision being the
success case the original claim excludes. -/
theorem c8_lookup_characterization (tbl : VarTbl) (s : String)
    (v : ShaderVariable) (value : PyVal) :
    ((∃ kv ∈ tbl, kv.1.name = s) → exceptOk (get_variable tbl (.str s)) = true)
    ∧ ((∀ kv ∈ tbl, kv.1.name ≠ s) →
        get_variable tbl (.str s) = .error .unknownVariable)
    ∧ ((∃ kv ∈ tbl, kv.1 = v) → exceptOk (get_variable tbl (.var v)) = true)
    ∧ ((∃ kv ∈ tbl, kv.1.name = v.pyRepr) →
        exceptOk (get_variable tbl (.var v)) = true)
    ∧ ((∀ kv ∈ tbl, kv.1 ≠ v ∧ kv.1.name ≠ v.pyRepr) →
        get_variable tbl (.var v) = .error .unknownVariable)
    ∧ ((∀ kv ∈ tbl, kv.1.name ≠ s) →
        set_variable tbl (.str s) value = .error .unknownVariable)
    ∧ ((∃ kv ∈ tbl, kv.1.name = s) →
        set_variable tbl (.str s) value ≠ .error .unknownVariable) := by
  have hstr : ∀ k : ShaderVariable, keyMatches k (.str s) = true ↔ k.name = s := by
    intro k
    simp [keyMatches, dataclassEqB, VarArg.pyStrOf]
  have hvar : ∀ k : ShaderVariable,
      keyMatches k (.var v) = true ↔ (k = v ∨ k.name = v.pyRepr) := by
    intro k
    simp [keyMatches, dataclassEqB, VarArg.pyStrOf]
  have hfind : ∀ (arg : VarArg),
      (∃ kv ∈ tbl, keyMatches kv.1 arg = true) →
        exceptOk (get_variable tbl arg) = true := by
    intro arg hex
    unfold get_variable
    have hsome : (tbl.find? (fun kv => keyMatches kv.1 arg)).isSome := by
      rw [List.find?_isSome]
      exact hex
    cases hfind2 : tbl.find? (fun kv => keyMatches kv.1 arg) with
    | none => rw [hfind2] at hsome; simp at hsome
    | some kv => simp [exceptOk]
  have hnone : ∀ (arg : VarArg),
      (∀ kv ∈ tbl, ¬ keyMatches kv.1 arg = true) →
        get_variable tbl arg = .error .unknownVariable := by
    intro arg hall
    unfold get_variable
    rw [List.find?_eq_none.mpr hall]
  refine ⟨?_, ?_, ?_, ?_, ?_, ?_, ?_⟩
  · intro ⟨kv, hmem, hname⟩
    exact hfind _ ⟨kv, hmem, (hstr kv.1).mpr hname⟩
  · intro hall
    exact hnone _ (fun kv hmem h => hall kv hmem ((hstr kv.1).mp h))
  · intro ⟨kv, hmem, heq⟩
    exact hfind _ ⟨kv, hmem, (hvar kv.1).mpr (Or.inl heq)⟩
  · intro ⟨kv, hmem, hname⟩
    exact hfind _ ⟨kv, hmem, (hvar kv.1).mpr (Or.inr hname)⟩
  · intro hall
    refine hnone _ (fun kv hmem h => ?_)
    rcases (hvar kv.1).mp h with heq | hname
    · exact (hall kv hmem).1 heq
    · exact (hall kv hmem).2 hname
  · intro hall
    exact set_variable_none_unknown (.str s) value tbl
      (fun kv hmem h => hall kv hmem ((hstr kv.1).mp h))
  · intro ⟨kv0, hmem0, hname0⟩
    exact set_variable_found_not_unknown (.str s) value tbl
      ⟨kv0, hmem0, (hstr kv0.1).mpr hname0⟩

/-- Witness for C8 on a concrete single-variable instance (plus the
repr-collision table of the counterexample for the success-by-collision
conjunct). -/
theorem c8_lookup_characterization_witness :
    exceptOk (get_variable [(⟨"x", .FLOAT, .vnone⟩, .vnone)] (.str "x")) = true
    ∧ get_variable [(⟨"x", .FLOAT, .vnone⟩, .vnone)] (.str "y")
        = .error .unknownVariable
    ∧ exceptOk (get_variable [(⟨"x", .FLOAT, .vnone⟩, .vnone)]
        (.var ⟨"x", .FLOAT, .vnone⟩)) = true
    ∧ exceptOk (get_variable [(⟨"BOOL b", .INT, .vnone⟩, .vint 7)]
        (.var ⟨"b", .BOOL, .vnone⟩)) = true
    ∧ get_variable [(⟨"x", .FLOAT, .vnone⟩, .vnone)]
        (.var ⟨"z", .INT, .vnone⟩) = .error .unknownVariable
    ∧ set_variable [(⟨"x", .FLOAT, .vnone⟩, .vnone)] (.str "y") (.vint 1)
        = .error .unknownVariable
    ∧ set_variable [(⟨"x", .FLOAT, .vnone⟩, .vnone)] (.str "x") (.vint 1)
        ≠ .error .unknownVariable := by
  refine ⟨
    (c8_lookup_characterization [(⟨"x", .FLOAT, .vnone⟩, .vnone)] "x"
        ⟨"x", .FLOAT, .vnone⟩ (.vint 1)).1
      ⟨(⟨"x", .FLOAT, .vnone⟩, .vnone), by decide, rfl⟩,
    (c8_lookup_characterization [(⟨"x", .FLOAT, .vnone⟩, .vnone)] "y"
        ⟨"x", .FLOAT, .vnone⟩ (.vint 1)).2.1 (by decide),
    (c8_lookup_characterization [(⟨"x", .FLOAT, .vnone⟩, .vnone)] "x"
        ⟨"x", .FLOAT, .vnone⟩ (.vint 1)).2.2.1
      ⟨(⟨"x", .FLOAT, .vnone⟩, .vnone), by decide, rfl⟩,
    (c8_lookup_characterization [(⟨"BOOL b", .INT, .vnone⟩, .vint 7)] "x"
        ⟨"b", .BOOL, .vnone⟩ (.vint 1)).2.2.2.1
      ⟨(⟨"BOOL b", .INT, .vnone⟩, .vint 7), by decide, by decide⟩,
    (c8_lookup_characterization [(⟨"x", .FLOAT, .vnone⟩, .vnone)] "x"
        ⟨"z", .INT, .vnone⟩ (.vint 1)).2.2.2.2.1 (by decide),
    (c8_lookup_characterization [(⟨"x", .FLOAT, .vnone⟩, .vnone)] "y"
        ⟨"x", .FLOAT, .vnone⟩ (.vint 1)).2.2.2.2.2.1 (by decide),
    (c8_lookup_characterization [(⟨"x", .FLOAT, .vnone⟩, .vnone)] "x"
        ⟨"x", .FLOAT, .vnone⟩ (.vint 1)).2.2.2.2.2.2
      ⟨(⟨"x", .FLOAT, .vnone⟩, .vnone), by decide, rfl⟩⟩

/-! ## Claim C9 -/

/-- Allocation hands out the next id. -/
theorem heap_alloc_fst (h : Heap) (a : NDArray) : (h.alloc a).1 = h.next := rfl

/-- Allocation advances the next id by one. -/
theorem heap_alloc_snd_next (h : Heap) (a : NDArray) :
    (h.alloc a).2.next = h.next + 1 := rfl

/-- Writing never changes the next id. -/
theorem heap_write_next (h : Heap) (i : ℕ) (x : NDArray) :
    (h.write i x).next = h.next := rfl

/-- A fresh allocation is readable at its id. -/
theorem heap_lookup_alloc_self (h : Heap) (a : NDArray) :
    (h.alloc a).2.lookup (h.alloc a).1 = some a := by
  simp [Heap.alloc, Heap.lookup, List.find?]

/-- Allocation leaves every other id unchanged. -/
theorem heap_lookup_alloc_other (h : Heap) (a : NDArray) (i : ℕ)
    (hi : i ≠ h.next) :
    (h.alloc a).2.lookup i = h.lookup i := by
  unfold Heap.alloc Heap.lookup
  dsimp only
  rw [List.find?_cons_of_neg]
  simp
  omega

/-- Rewriting the entry of one id leaves searches for other ids
unchanged. -/
theorem find_map_write_other (mem : List (ℕ × NDArray)) (j : ℕ) (x : NDArray)
    (i : ℕ) (hij : i ≠ j) :
    (mem.map (fun p => if p.1 = j then (j, x) else p)).find? (fun p => p.1 = i)
      = mem.find? (fun p => p.1 = i) := by
  induction mem with
  | nil => rfl
  | cons p rest ih =>
    by_cases hpj : p.1 = j
    · have hd1 : decide ((j : ℕ) = i) = false :=
        decide_eq_false (fun hc => hij hc.symm)
      have hd2 : decide (p.1 = i) = false := by rw [hpj]; exact hd1
      simp only [List.map_cons, if_pos hpj, List.find?, hd1, hd2]
      exact ih
    · simp only [List.map_cons, if_neg hpj, List.find?]
      cases hd : decide (p.1 = i) with
      | true => rfl
      | false => exact ih

/-- Rewriting the entry of an id present in the list makes the search for
that id return the new entry. -/
theorem find_map_write_self (mem : List (ℕ × NDArray)) (j : ℕ) (x : NDArray)
    (hpresent : (mem.find? (fun p => p.1 = j)).isSome) :
    (mem.map (fun p => if p.1 = j then (j, x) else p)).find? (fun p => p.1 = j)
      = some (j, x) := by
  induction mem with
  | nil => simp [List.find?] at hpresent
  | cons p rest ih =>
    by_cases hpj : p.1 = j
    · simp [List.find?, if_pos hpj]
    · have hd : decide (p.1 = j) = false := decide_eq_false hpj
      simp only [List.map_cons, if_neg hpj, List.find?, hd] at hpresent ⊢
      exact ih hpresent

/-- Writing one id leaves every other id unchanged. -/
theorem heap_lookup_write_other (h : Heap) (j : ℕ) (x : NDArray) (i : ℕ)
    (hij : i ≠ j) : (h.write j x).lookup i = h.lookup i := by
  unfold Heap.write Heap.lookup
  dsimp only
  rw [find_map_write_other h.mem j x i hij]

/-- Writing an id present in the heap makes the new value readable. -/
theorem heap_lookup_write_self (h : Heap) (j : ℕ) (x : NDArray)
    (hpresent : (h.lookup j).isSome) :
    (h.write j x).lookup j = some x := by
  unfold Heap.lookup at hpresent
  have hpresent2 : (h.mem.find? (fun p => p.1 = j)).isSome := by
    simpa using hpresent
  unfold Heap.write Heap.lookup
  dsimp only
  rw [find_map_write_self h.mem j x hpresent2]
  rfl

/-- A readable id of a well-formed heap lies below the next id. -/
theorem heap_lookup_lt (hp : Heap) (i : ℕ) (a : NDArray)
    (hwf : ∀ p ∈ hp.mem, p.1 < hp.next) (h : hp.lookup i = some a) :
    i < hp.next := by
  unfold Heap.lookup at h
  cases hf : hp.mem.find? (fun p => p.1 = i) with
  | none => rw [hf] at h; cases h
  | some q =>
    have hmem := List.mem_of_find?_eq_some hf
    have hpred := List.find?_some hf
    have hpi : q.1 = i := by simpa using hpred
    exact hpi ▸ hwf q hmem

/-- Frame effects of the draw-and-readback tail: the input id is
untouched, the returned id is fresh, the variable table is returned
unchanged, and the returned buffer is a uint8 array of the drawn image
shape. -/
theorem applyHeapDraw_spec (render : List GLUploadCall → NDArray → List Int)
    (img : NDArray) (hp : Heap) (tbl tbl2 : VarTbl) (locOf : String → Int)
    (inputId outId : ℕ) (a : NDArray) (hp2 : Heap)
    (hin : hp.lookup inputId = some a)
    (hinext : inputId < hp.next)
    (hdraw : applyHeapDraw render img hp tbl locOf = .ok (outId, hp2, tbl2)) :
    hp2.lookup inputId = some a ∧ hp.next ≤ outId ∧ tbl2 = tbl
    ∧ (hp2.lookup outId).map (fun o => (o.dtype, o.shape))
        = some (.uint8, img.shape) := by
  simp only [applyHeapDraw, Except.ok.injEq, Prod.mk.injEq] at hdraw
  obtain ⟨h1, h2, h3⟩ := hdraw
  subst h1
  subst h2
  subst h3
  refine ⟨?_, ?_, rfl, ?_⟩
  · rw [heap_lookup_alloc_other _ _ _ (by
      simp only [heap_write_next, heap_alloc_snd_next]
      omega)]
    rw [heap_lookup_write_other _ _ _ _ (by
      simp only [heap_alloc_fst, heap_alloc_snd_next]
      omega)]
    rw [heap_lookup_alloc_other _ _ _ (by
      simp only [heap_alloc_snd_next]
      omega)]
    rw [heap_lookup_alloc_other _ _ _ (by omega)]
    exact hin
  · simp only [heap_alloc_fst, heap_write_next, heap_alloc_snd_next]
    omega
  · rw [heap_lookup_alloc_self]
    rfl

/-- A shape that passes the dimensionality check with a third entry equal
to 3 is exactly its first two entries followed by 3. -/
theorem shape_three_of_pass (sh : List ℕ)
    (hdims : 1 < sh.length ∧ sh.length < 4) (hch : sh.getD 2 0 = 3) :
    sh = sh.take 2 ++ [3] := by
  rcases sh with _ | ⟨d0, rest⟩
  · simp at hdims
  · rcases rest with _ | ⟨d1, rest2⟩
    · simp at hdims
    · rcases rest2 with _ | ⟨c, rest3⟩
      · simp at hch
      · rcases rest3 with _ | ⟨e, rest4⟩
        · simp at hch
          simp [hch]
        · simp only [List.length_cons] at hdims
          omega

/-- C9: apply mutates neither the caller input array nor the uniform
binding table; its only heap write targets the freshly allocated output
buffer, and the value returned lives at a fresh id, holding a uint8
array shaped like the channel-broadcast input. -/
theorem c9_apply_frame_effects (render : List GLUploadCall → NDArray → List Int)
    (instances : Int) (hp : Heap) (tbl : VarTbl) (locOf : String → Int)
    (inputId outId : ℕ) (hp2 : Heap) (tbl2 : VarTbl) (a : NDArray)
    (hwf : ∀ p ∈ hp.mem, p.1 < hp.next)
    (hin : hp.lookup inputId = some a)
    (hrun : applyHeap render instances hp tbl locOf inputId
        = .ok (outId, hp2, tbl2)) :
    hp2.lookup inputId = some a
    ∧ hp.next ≤ outId
    ∧ tbl2 = tbl
    ∧ (hp2.lookup outId).map (fun o => (o.dtype, o.shape))
        = some (.uint8, a.shape.take 2 ++ [3]) := by
  have hinext : inputId < hp.next := heap_lookup_lt hp inputId a hwf hin
  unfold applyHeap at hrun
  rw [hin] at hrun
  split at hrun
  · cases hrun
  · rename_i a0 heq0
    injection heq0 with heq0
    subst heq0
    split at hrun
    · cases hrun
    · split at hrun
      · cases hrun
      · rename_i d0 rest hsh
        split at hrun
        · cases hrun
        · split at hrun
          · cases hrun
          · rename_i h0 hdims
            rw [not_not] at hdims
            by_cases hdt : a.dtype = Dtype.uint8
            · -- input already uint8: no astype copy
              have hcond : ¬ a.dtype ≠ Dtype.uint8 := by simp [hdt]
              simp only [if_neg hcond] at hrun
              split at hrun
              · -- 2-D or single-channel: broadcast allocated, then draw
                have hne1 : inputId ≠ hp.next := by omega
                have hds := applyHeapDraw_spec render (repeatChannel3 a)
                    (hp.alloc (repeatChannel3 a)).2 tbl tbl2 locOf inputId
                    outId a hp2
                  (by rw [heap_lookup_alloc_other _ _ _ hne1]; exact hin)
                  (by simp only [heap_alloc_snd_next]; omega)
                  hrun
                refine ⟨hds.1, le_trans ?_ hds.2.1, hds.2.2.1, ?_⟩
                · simp only [heap_alloc_snd_next]
                  omega
                · rw [hds.2.2.2]
                  simp [repeatChannel3]
              · split at hrun
                · cases hrun
                · -- already 3-channel: drawn without further allocation
                  rename_i hch
                  rw [not_not] at hch
                  have hds := applyHeapDraw_spec render a hp tbl tbl2 locOf
                      inputId outId a hp2 hin hinext hrun
                  refine ⟨hds.1, hds.2.1, hds.2.2.1, ?_⟩
                  rw [hds.2.2.2, ← shape_three_of_pass a.shape hdims hch]
            · -- dtype differs: astype copy allocated first
              have hcond : a.dtype ≠ Dtype.uint8 := hdt
              simp only [if_pos hcond] at hrun
              have hsa : (astypeU8 a).shape = a.shape := rfl
              split at hrun
              · have hne1 : inputId ≠ hp.next := by omega
                have hne2 : inputId ≠ (hp.alloc (astypeU8 a)).2.next := by
                  simp only [heap_alloc_snd_next]
                  omega
                have hds := applyHeapDraw_spec render
                    (repeatChannel3 (astypeU8 a))
                    ((hp.alloc (astypeU8 a)).2.alloc
                      (repeatChannel3 (astypeU8 a))).2 tbl tbl2 locOf inputId
                    outId a hp2
                  (by
                    rw [heap_lookup_alloc_other _ _ _ hne2,
                      heap_lookup_alloc_other _ _ _ hne1]
                    exact hin)
                  (by simp only [heap_alloc_snd_next]; omega)
                  hrun
                refine ⟨hds.1, le_trans ?_ hds.2.1, hds.2.2.1, ?_⟩
                · simp only [heap_alloc_snd_next]
                  omega
                · rw [hds.2.2.2]
                  simp [repeatChannel3, astypeU8]
              · split at hrun
                · cases hrun
                · rename_i hch
                  rw [not_not, hsa] at hch
                  have hne1 : inputId ≠ hp.next := by omega
                  have hds := applyHeapDraw_spec render (astypeU8 a)
                      (hp.alloc (astypeU8 a)).2 tbl tbl2 locOf inputId outId
                      a hp2
                    (by rw [heap_lookup_alloc_other _ _ _ hne1]; exact hin)
                    (by simp only [heap_alloc_snd_next]; omega)
                    hrun
                  refine ⟨hds.1, le_trans ?_ hds.2.1, hds.2.2.1, ?_⟩
                  · simp only [heap_alloc_snd_next]
                    omega
                  · rw [hds.2.2.2, hsa,
                      ← shape_three_of_pass a.shape hdims hch]

/-- Witness for C9: a concrete 1 by 1 uint8 image at heap id 1 pushed
through applyHeap with a constant render function. -/
theorem c9_apply_frame_effects_witness :
    (⟨[(4, ⟨[1, 1, 3], .uint8, [9, 9, 9]⟩),
        (3, ⟨[1, 1, 3], .uint8, [9, 9, 9]⟩),
        (2, ⟨[1, 1, 3], .uint8, [5, 5, 5]⟩),
        (1, ⟨[1, 1, 3], .uint8, [5, 5, 5]⟩)], 5⟩ : Heap).lookup 1
        = some ⟨[1, 1, 3], .uint8, [5, 5, 5]⟩
    ∧ (2 : ℕ) ≤ 4
    ∧ ([] : VarTbl) = []
    ∧ ((⟨[(4, ⟨[1, 1, 3], .uint8, [9, 9, 9]⟩),
          (3, ⟨[1, 1, 3], .uint8, [9, 9, 9]⟩),
          (2, ⟨[1, 1, 3], .uint8, [5, 5, 5]⟩),
          (1, ⟨[1, 1, 3], .uint8, [5, 5, 5]⟩)], 5⟩ : Heap).lookup 4).map
        (fun o => (o.dtype, o.shape))
      = some (.uint8, ([1, 1, 3] : List ℕ).take 2 ++ [3]) :=
  c9_apply_frame_effects (fun _ _ => [9, 9, 9]) 1
    ⟨[(1, ⟨[1, 1, 3], .uint8, [5, 5, 5]⟩)], 2⟩ [] (fun _ => 0) 1 4
    ⟨[(4, ⟨[1, 1, 3], .uint8, [9, 9, 9]⟩),
      (3, ⟨[1, 1, 3], .uint8, [9, 9, 9]⟩),
      (2, ⟨[1, 1, 3], .uint8, [5, 5, 5]⟩),
      (1, ⟨[1, 1, 3], .uint8, [5, 5, 5]⟩)], 5⟩ []
    ⟨[1, 1, 3], .uint8, [5, 5, 5]⟩
    (by decide) (by decide) (by decide)

/-- C10: on an already-constructed instance, apply_shader binds every
keyword argument through set_variable, applies the shader to the image,
and closes the instance before returning - the returned global state is
the closeStep of the incoming one, so the shared-context reference is
released (counter decremented) whenever apply_shader returns normally -
while passing the PixelShader class object itself raises an Exception. -/
theorem c10_apply_shader (render : List GLUploadCall → NDArray → List Int)
    (locOf : String → Int) (tbl tbl2 : VarTbl) (g : GlobalState)
    (img out : NDArray) (kwargs : List (String × PyVal))
    (hset : setKwargs tbl kwargs = .ok tbl2)
    (happly : applyResult render locOf tbl2 g.instances img = .ok out) :
    apply_shader render locOf (.inst tbl) g img kwargs
      = .ok (out, closeStep g, tbl2)
    ∧ (closeStep g).instances = g.instances - 1
    ∧ apply_shader render locOf .classObject g img kwargs
      = .error .classArgument := by
  refine ⟨?_, rfl, rfl⟩
  simp only [apply_shader, hset, happly]

/-- Witness for C10: an instance with an empty variable table, no keyword
arguments, and a 1 by 1 by 3 uint8 image under a constant render
function. -/
theorem c10_apply_shader_witness :
    apply_shader (fun _ _ => [9, 9, 9]) (fun _ => 0)
        (.inst []) ⟨1, some ()⟩ ⟨[1, 1, 3], .uint8, [5, 5, 5]⟩ []
      = .ok (⟨[1, 1, 3], .uint8, [9, 9, 9]⟩, closeStep ⟨1, some ()⟩, [])
    ∧ (closeStep ⟨1, some ()⟩).instances
        = (⟨1, some ()⟩ : GlobalState).instances - 1
    ∧ apply_shader (fun _ _ => [9, 9, 9]) (fun _ => 0)
        .classObject ⟨1, some ()⟩ ⟨[1, 1, 3], .uint8, [5, 5, 5]⟩ []
      = .error .classArgument :=
  c10_apply_shader (fun _ _ => [9, 9, 9]) (fun _ => 0) [] []
    ⟨1, some ()⟩ ⟨[1, 1, 3], .uint8, [5, 5, 5]⟩
    ⟨[1, 1, 3], .uint8, [9, 9, 9]⟩ [] rfl (by decide)

end CVGL
